import Mathlib

/-!
# emount: a shallow embedding of the Go sources

The program is sequential glue around its host: the filesystem, the process
table, the terminal and the environment.  The host is a record of operations
over an arbitrary state type `σ`; every function of the program is translated
with explicit state passing over a `World σ`, which carries the host state and
the list of host calls made so far.  Go's `(value, error)` results are pairs
whose second component is `none` for a nil error.  Writes to stdout and to the
logger are not part of the model.
-/

namespace Emount

/-! ## Errors -/

/-- Go error values that the program creates or inspects. -/
inductive GoError where
  /-- a `*usageErr` (usage.go) -/
  | usageErr (message : String)
  /-- the result of `errors.New` or `fmt.Errorf` -/
  | errorString (s : String)
  /-- an `*exec.ExitError` carrying `ProcessState.ExitCode()` -/
  | exitError (rc : Int)
  /-- the sentinel `io.EOF` -/
  | eof
  /-- any other error produced by the host (os, exec, syscall, terminal) -/
  | sysError (s : String)
deriving DecidableEq, Repr

/-- Go `error` interface value; `none` is `nil`. -/
abbrev error := Option GoError

/-- The method `Error()` of an error value. -/
def GoError.Error : GoError → String
  | .usageErr message => message
  | .errorString s => s
  | .exitError rc => "exit status " ++ toString rc
  | .eof => "EOF"
  | .sysError s => s

/-- The text `fmt` prints for an error under the verb `%v`. -/
def fmtV : error → String
  | none => "<nil>"
  | some e => e.Error

/-- usage.go `newUsageErr`. -/
def newUsageErr (msg : String) : error :=
  some (GoError.usageErr msg)

/-- usage.go `isUsageErr`: the type assertion `e.(*usageErr)`. -/
def isUsageErr (e : error) : Bool :=
  match e with
  | some (GoError.usageErr _) => true
  | _ => false

/-! ## Data -/

/-- emount.go `options`. -/
structure options where
  run : String
  init : String
  srcFolder : String
  mountPoint : String
  runCmd : List String
deriving DecidableEq, Repr

/-- emount.go `dirCheckResponse`. -/
inductive dirCheckResponse where
  | invalidPath
  | isDir
  | isNotDir
deriving DecidableEq, Repr

/-- emount.go `dirMode` (octal 0700). -/
def dirMode : Nat := 0o700

/-- emount.go `minEntropy`. -/
def minEntropy : ℚ := 24

def tmpFolderPattern : String := "emount_"

def envPasswordKey : String := "EMOUNT_PASSWORD"

def envFolderKey : String := "EMOUNT_FOLDER"

/-- getpass.go `maxNewPasswordTries`. -/
def maxNewPasswordTries : Nat := 10

/-- Linux `MNT_DETACH` from `sys/mount.h`. -/
def MNT_DETACH : Nat := 2

/-- An `os.FileInfo`, reduced to its `Mode()`. -/
structure FileInfo where
  mode : Nat
deriving DecidableEq, Repr

/-- Go `os.ModeDir`. -/
def ModeDir : Nat := 2 ^ 31

/-- Go `os.ModeType`: directory, symlink, named pipe, socket, device,
char device and irregular bits. -/
def ModeType : Nat :=
  2 ^ 31 ||| 2 ^ 27 ||| 2 ^ 25 ||| 2 ^ 24 ||| 2 ^ 26 ||| 2 ^ 21 ||| 2 ^ 19

/-- Go `FileMode.IsDir`. -/
def FileInfo.IsDir (fi : FileInfo) : Bool :=
  fi.mode &&& ModeDir != 0

/-- Go `FileMode.IsRegular`. -/
def FileInfo.IsRegular (fi : FileInfo) : Bool :=
  fi.mode &&& ModeType == 0

/-- An `exec.Cmd` as the program fills it in. -/
structure Cmd where
  /-- field `Path` (the program name when built by `exec.Command`) -/
  path : String
  /-- field `Args`, the full argv -/
  args : List String
  /-- field `Env`; `none` is a nil slice, the child inherits the environment -/
  env : Option (List String)
  /-- field `Stdin`: `some s` is a buffer holding `s`, `none` is the inherited `os.Stdin` -/
  stdin : Option String
  /-- whether stdout and stderr go to a buffer of the program -/
  capture : Bool
deriving DecidableEq, Repr

/-- What `cmd.Run()` leaves behind: the captured output and the error. -/
structure RunResult where
  out : String
  err : error
deriving DecidableEq, Repr

/-- One call made to the host. -/
inductive Event where
  | stat (path : String)
  | osOpen (path : String)
  | fileStat (fd : Nat)
  | readdir (fd : Nat)
  | mkdirAll (path : String) (perm : Nat)
  | tempDir (dir pattern : String) (res : String × error)
  | removeAll (path : String)
  | remove (path : String)
  | lookPath (file : String)
  | run (cmd : Cmd) (res : RunResult)
  | unmount (path : String) (flags : Nat)
  | readPassword (res : String × error)
  | copy (src dest : String)
deriving DecidableEq, Repr

/-- The host the program runs on. Queries read the state, commands also change it. -/
structure Host (σ : Type) where
  /-- build tag: `true` selects umount_macos.go, `false` umount_linux.go -/
  darwin : Bool
  getenv : σ → String → String
  environ : σ → List String
  stat : σ → String → FileInfo × error
  osOpen : σ → String → Nat × error
  fileStat : σ → Nat → FileInfo × error
  /-- the error of `Readdir(1)`: nil when an entry came back, `io.EOF` when none is left -/
  readdir : σ → Nat → error
  mkdirAll : σ → String → Nat → error × σ
  tempDir : σ → String → String → (String × error) × σ
  removeAll : σ → String → error × σ
  remove : σ → String → error × σ
  lookPath : σ → String → String × error
  run : σ → Cmd → RunResult × σ
  unmount : σ → String → Nat → error × σ
  readPassword : σ → (String × error) × σ
  copy : σ → String → String → error × σ
  /-- the score `zxcvbn.PasswordStrength(p, nil).Entropy`, a finite float64 taken as the
  rational it denotes -/
  passwordEntropy : String → ℚ

/-- Host state together with the calls made so far, oldest first. -/
structure World (σ : Type) where
  st : σ
  trace : List Event

variable {σ : Type}

/-- Append one call to the trace. -/
def World.log (w : World σ) (e : Event) : World σ :=
  { w with trace := w.trace ++ [e] }

/-! ## Host calls, each recorded in the trace -/

def osStat (h : Host σ) (path : String) (w : World σ) : (FileInfo × error) × World σ :=
  (h.stat w.st path, w.log (Event.stat path))

def osOpen (h : Host σ) (path : String) (w : World σ) : (Nat × error) × World σ :=
  (h.osOpen w.st path, w.log (Event.osOpen path))

def fileStat (h : Host σ) (fd : Nat) (w : World σ) : (FileInfo × error) × World σ :=
  (h.fileStat w.st fd, w.log (Event.fileStat fd))

def fileReaddir (h : Host σ) (fd : Nat) (w : World σ) : error × World σ :=
  (h.readdir w.st fd, w.log (Event.readdir fd))

def osMkdirAll (h : Host σ) (path : String) (perm : Nat) (w : World σ) : error × World σ :=
  ((h.mkdirAll w.st path perm).1,
    { st := (h.mkdirAll w.st path perm).2, trace := w.trace ++ [Event.mkdirAll path perm] })

def ioutilTempDir (h : Host σ) (dir pattern : String) (w : World σ) :
    (String × error) × World σ :=
  ((h.tempDir w.st dir pattern).1,
    { st := (h.tempDir w.st dir pattern).2,
      trace := w.trace ++ [Event.tempDir dir pattern (h.tempDir w.st dir pattern).1] })

def osRemoveAll (h : Host σ) (path : String) (w : World σ) : error × World σ :=
  ((h.removeAll w.st path).1,
    { st := (h.removeAll w.st path).2, trace := w.trace ++ [Event.removeAll path] })

def osRemove (h : Host σ) (path : String) (w : World σ) : error × World σ :=
  ((h.remove w.st path).1,
    { st := (h.remove w.st path).2, trace := w.trace ++ [Event.remove path] })

def execLookPath (h : Host σ) (file : String) (w : World σ) : (String × error) × World σ :=
  (h.lookPath w.st file, w.log (Event.lookPath file))

def cmdRun (h : Host σ) (cmd : Cmd) (w : World σ) : RunResult × World σ :=
  ((h.run w.st cmd).1,
    { st := (h.run w.st cmd).2, trace := w.trace ++ [Event.run cmd (h.run w.st cmd).1] })

def syscallUnmount (h : Host σ) (path : String) (flags : Nat) (w : World σ) :
    error × World σ :=
  ((h.unmount w.st path flags).1,
    { st := (h.unmount w.st path flags).2, trace := w.trace ++ [Event.unmount path flags] })

def terminalReadPassword (h : Host σ) (w : World σ) : (String × error) × World σ :=
  ((h.readPassword w.st).1,
    { st := (h.readPassword w.st).2,
      trace := w.trace ++ [Event.readPassword (h.readPassword w.st).1] })

def copyCopy (h : Host σ) (src dest : String) (w : World σ) : error × World σ :=
  ((h.copy w.st src dest).1,
    { st := (h.copy w.st src dest).2, trace := w.trace ++ [Event.copy src dest] })

/-! ## getpass.go -/

/-- Go `unicode.IsSpace`. -/
def isSpace (c : Char) : Bool :=
  c = '\t' || c = '\n' || c.toNat = 0x0B || c.toNat = 0x0C || c = '\r' || c = ' ' ||
  c.toNat = 0x85 || c.toNat = 0xA0 || c.toNat = 0x1680 ||
  (0x2000 ≤ c.toNat && c.toNat ≤ 0x200A) || c.toNat = 0x2028 || c.toNat = 0x2029 ||
  c.toNat = 0x202F || c.toNat = 0x205F || c.toNat = 0x3000

/-- Go `strings.TrimSpace`. -/
def trimSpace (s : String) : String :=
  String.mk ((s.data.dropWhile isSpace).reverse.dropWhile isSpace).reverse

/-- getpass.go `terminalGetSecret`. -/
def terminalGetSecret (h : Host σ) (_prompt : String) (w : World σ) :
    (String × error) × World σ :=
  match terminalReadPassword h w with
  | ((bytePassword, err), w1) =>
    match err with
    | some e => (("", some e), w1)
    | none => ((trimSpace bytePassword, none), w1)

/-- The loop of `promptNewPassword` with `n` iterations left. -/
def promptNewPasswordLoop (h : Host σ) (prompt : String) (minEntropy : ℚ) :
    Nat → World σ → (String × error) × World σ
  | 0, w => (("", some (GoError.errorString "Too many tries. Please try again later")), w)
  | n + 1, w =>
    match terminalGetSecret h prompt w with
    | ((password, err), w1) =>
      match err with
      | some e => (("", some (GoError.errorString ("Input error: " ++ e.Error))), w1)
      | none =>
        if password.length = 0 ∨ h.passwordEntropy password < minEntropy then
          promptNewPasswordLoop h prompt minEntropy n w1
        else
          match terminalGetSecret h "Confirm password:" w1 with
          | ((confirm, err), w2) =>
            match err with
            | some _ => promptNewPasswordLoop h prompt minEntropy n w2
            | none =>
              if password ≠ confirm then
                promptNewPasswordLoop h prompt minEntropy n w2
              else
                ((password, none), w2)

/-- getpass.go `promptNewPassword`. -/
def promptNewPassword (h : Host σ) (prompt : String) (minEntropy : ℚ) (w : World σ) :
    (String × error) × World σ :=
  promptNewPasswordLoop h prompt minEntropy maxNewPasswordTries w

/-! ## emount.go: folder checks -/

/-- emount.go `checkEmptyDir`. -/
def checkEmptyDir (h : Host σ) (path : String) (w : World σ) : error × World σ :=
  match osOpen h path w with
  | ((dh, err), w1) =>
    match err with
    | some e => (some e, w1)
    | none =>
      match fileStat h dh w1 with
      | ((fs, err), w2) =>
        match err with
        | some e => (some e, w2)
        | none =>
          if !fs.IsDir then
            (some (GoError.errorString (path ++ " is not a directory")), w2)
          else
            match fileReaddir h dh w2 with
            | (err, w3) =>
              match err with
              | none => (some (GoError.errorString ("folder " ++ path ++ " is not empty")), w3)
              | some e =>
                if e ≠ GoError.eof then (some e, w3)
                else (none, w3)

/-- emount.go `checkFolder`. -/
def checkFolder (h : Host σ) (path : String) (w : World σ) : dirCheckResponse × World σ :=
  if path = "" then
    (dirCheckResponse.invalidPath, w)
  else
    match osStat h path w with
    | ((fstat, err), w1) =>
      match err with
      | some _ => (dirCheckResponse.invalidPath, w1)
      | none =>
        if !fstat.IsDir then (dirCheckResponse.isNotDir, w1)
        else (dirCheckResponse.isDir, w1)

/-! ## emount.go: running processes -/

/-- emount.go `runCommand` once `runCmd[0]` is known to exist: the body of the
function with `runCmd0` for `runCmd[0]`. -/
def runCommandAt (h : Host σ) (runCmd0 : String) (runCmd : List String) (env : List String)
    (w : World σ) : error × World σ :=
  match cmdRun h
    { path := runCmd0, args := runCmd, env := some env, stdin := none, capture := false } w with
  | (res, w1) =>
    match res.err with
    | some (GoError.exitError rc) =>
      (some (GoError.errorString
        ("Command exited with error. [rc=" ++ toString rc ++ "]")), w1)
    | some e => (some (GoError.errorString ("Command error: " ++ e.Error)), w1)
    | none => (none, w1)

/-- emount.go `runCommand`. The result is `none` when `runCmd[0]` panics
(index out of range on an empty slice). -/
def runCommand (h : Host σ) (runCmd : List String) (env : List String) (w : World σ) :
    Option (error × World σ) :=
  match runCmd with
  | [] => none
  | runCmd0 :: _ => some (runCommandAt h runCmd0 runCmd env w)

/-- umount_linux.go `unmountVol`. Its call of `runCommand` is on the
three-element slice `{fusermount, "-u", path}`, so it is the body of
`runCommand` with `fusermount` for `runCmd[0]`. -/
def unmountVolLinux (h : Host σ) (path : String) (w : World σ) : error × World σ :=
  match syscallUnmount h path MNT_DETACH w with
  | (e1, w1) =>
    match e1 with
    | some e1 =>
      let env := h.environ w1.st
      match execLookPath h "fusermount" w1 with
      | ((fusermount, err), w2) =>
        match err with
        | none =>
          match runCommandAt h fusermount [fusermount, "-u", path] env w2 with
          | (e2, w3) =>
            match e2 with
            | none => (none, w3)
            | some e2 =>
              (some (GoError.errorString
                ("unmount failed [1]:" ++ e1.Error ++ " [2]:" ++ e2.Error)), w3)
        | some _ => (some e1, w2)
    | none => (none, w1)

/-- umount_macos.go `unmountVol`. -/
def unmountVolDarwin (h : Host σ) (path : String) (w : World σ) : error × World σ :=
  syscallUnmount h path 0 w

/-- The `unmountVol` the build tags select. -/
def unmountVol (h : Host σ) (path : String) (w : World σ) : error × World σ :=
  if h.darwin then unmountVolDarwin h path w else unmountVolLinux h path w

/-- emount.go `mountCrypt` from its `defer` statement on, with the mount point
fixed and `cleanup` telling whether it was created here. The deferred function
removes the temporary folder on every return taken while `cleanup` is set; the
successful return clears `cleanup` first. -/
def mountCryptAt (h : Host σ) (cryptPath : String) (mountPoint : String) (encPass : String)
    (cleanup : Bool) (w : World σ) : (String × error) × World σ :=
  match cmdRun h
    { path := "gocryptfs", args := ["gocryptfs", "-q", "--", cryptPath, mountPoint],
      env := none, stdin := some encPass, capture := true } w with
  | (res, w2) =>
    match res.err with
    | some e =>
      let w3 := if cleanup then (osRemoveAll h mountPoint w2).2 else w2
      match e with
      | GoError.exitError rc =>
        if rc = 12 then
          (("", some (GoError.errorString "Invalid password")), w3)
        else
          (("", some (GoError.errorString
            ("Mount failed: " ++ res.out ++ " (rc=" ++ toString rc ++ ")"))), w3)
      | _ => (("", some (GoError.errorString ("Mount failed: " ++ e.Error))), w3)
    | none => ((mountPoint, none), w2)

/-- emount.go `mountCrypt`. -/
def mountCrypt (h : Host σ) (cryptPath : String) (mountPoint : String) (encPass : String)
    (w : World σ) : (String × error) × World σ :=
  if mountPoint = "" then
    match ioutilTempDir h "" tmpFolderPattern w with
    | ((mountPoint, err), w1) =>
      match err with
      | some e =>
        (("", some (GoError.errorString ("Failed to create mount point: " ++ e.Error))), w1)
      | none => mountCryptAt h cryptPath mountPoint encPass true w1
  else mountCryptAt h cryptPath mountPoint encPass false w

/-- emount.go `initialCopy`. The deferred `os.RemoveAll(mountPoint)` runs on
every return after the mount. -/
def initialCopy (h : Host σ) (cryptPath : String) (password : String) (initFrom : String)
    (w : World σ) : error × World σ :=
  match mountCrypt h cryptPath "" password w with
  | ((mountPoint, err), w1) =>
    match err with
    | some e =>
      (some (GoError.errorString ("failed to mount new volume: " ++ e.Error)), w1)
    | none =>
      match copyCopy h initFrom mountPoint w1 with
      | (err, w2) =>
        match err with
        | some e => (some e, (osRemoveAll h mountPoint w2).2)
        | none =>
          match unmountVol h mountPoint w2 with
          | (_, w3) => (none, (osRemoveAll h mountPoint w3).2)

/-- emount.go `initCryptVol` once the passphrase is in hand (from the check
for an empty passphrase on). -/
def initCryptVolWith (h : Host σ) (path : String) (initFrom : String) (encPass : String)
    (w : World σ) : error × World σ :=
  if encPass = "" then
    (some (GoError.errorString "Password may not be empty"), w)
  else
    match osMkdirAll h path dirMode w with
    | (err, w2) =>
      match err with
      | some e => (some e, w2)
      | none =>
        match cmdRun h
          { path := "gocryptfs", args := ["gocryptfs", "-init", "-q", "--", path],
            env := none, stdin := some encPass, capture := true } w2 with
        | (res, w3) =>
          match res.err with
          | some (GoError.exitError rc) =>
            (some (GoError.errorString
              ("Initialization failed: " ++ res.out ++ " (rc=" ++ toString rc ++ ")")), w3)
          | some e =>
            (some (GoError.errorString ("Initialization failed: " ++ e.Error)), w3)
          | none =>
            if initFrom ≠ "" then
              match initialCopy h path encPass initFrom w3 with
              | (err, w4) =>
                match err with
                | some e =>
                  (some (GoError.errorString
                    ("The vault was successfully created, but some " ++
                     "files were not copied into it: (" ++ e.Error ++
                     "). If you can fix these " ++
                     "errors, you may want to delete the crypt volume and try again.")), w4)
                | none => (none, w4)
            else (none, w3)

/-- emount.go `initCryptVol`. -/
def initCryptVol (h : Host σ) (path : String) (initFrom : String) (w : World σ) :
    error × World σ :=
  if h.getenv w.st envPasswordKey = "" then
    match promptNewPassword h "Enter encryption passphrase: " minEntropy w with
    | ((encPass, err), w1) =>
      match err with
      | some e => (some e, w1)
      | none => initCryptVolWith h path initFrom encPass w1
  else initCryptVolWith h path initFrom (h.getenv w.st envPasswordKey) w

/-- emount.go `decryptAndRun` once the passphrase is in hand (from the check
for an empty passphrase on). The result is `none` when `runCommand` panics. -/
def decryptAndRunWith (h : Host σ) (opt : options) (encPass : String) (w : World σ) :
    Option (error × World σ) :=
  if encPass = "" then
    some (some (GoError.errorString "Password may not be empty"), w)
  else
    match mountCrypt h opt.run opt.mountPoint encPass w with
    | ((mountPoint, err), w2) =>
      match err with
      | some e => some (some (GoError.errorString ("Failed to mount: " ++ e.Error)), w2)
      | none =>
        let env := h.environ w2.st ++ [envFolderKey ++ "=" ++ mountPoint]
        match runCommand h opt.runCmd env w2 with
        | none => none
        | some r3 =>
          match unmountVol h mountPoint r3.2 with
          | (err, w4) =>
            match err with
            | some _ => some (none, w4)
            | none =>
              if opt.mountPoint = "" then some (none, (osRemove h mountPoint w4).2)
              else some (none, w4)

/-- emount.go `decryptAndRun`. -/
def decryptAndRun (h : Host σ) (opt : options) (w : World σ) : Option (error × World σ) :=
  if h.getenv w.st envPasswordKey = "" then
    match terminalGetSecret h "Enter encryption passphrase: " w with
    | ((encPass, err), w1) =>
      match err with
      | some e => some (some e, w1)
      | none => decryptAndRunWith h opt encPass w1
  else decryptAndRunWith h opt (h.getenv w.st envPasswordKey) w

/-! ## usage.go: the command line -/

/-- Assign `value` to the variable the flag `name` was registered with
(`flag.StringVar` in `parseArgs`); `none` when no such flag is defined. -/
def setFlag (opt : options) (name : String) (value : String) : Option options :=
  if name = "run" ∨ name = "r" then some { opt with run := value }
  else if name = "init" ∨ name = "i" then some { opt with init := value }
  else if name = "from" ∨ name = "f" then some { opt with srcFolder := value }
  else if name = "mount" ∨ name = "m" then some { opt with mountPoint := value }
  else none

/-- Split a flag word after its dashes at the first "=" that is not its first
character, as `FlagSet.parseOne` does. -/
def splitFlagName (name : List Char) : String × Option String :=
  match name with
  | [] => ("", none)
  | c :: cs =>
    match cs.span (fun x => x != '=') with
    | (pre, []) => (String.mk (c :: pre), none)
    | (pre, _ :: value) => (String.mk (c :: pre), some (String.mk value))

/-- Go `flag.Parse` on `os.Args[1:]` with the flags of `parseArgs`, all of
them string flags, under `flag.ExitOnError`. The result is the variables as set
and `flag.Args()`, or `none` when the flag package ends the process (bad syntax,
unknown flag, missing value, or a help flag). -/
def flagParse (opt : options) : List String → Option (options × List String)
  | [] => some (opt, [])
  | s :: rest =>
    match s.data with
    | '-' :: c :: cs =>
      if c = '-' ∧ cs = [] then some (opt, rest)
      else
        let name := if c = '-' then cs else c :: cs
        match name with
        | [] => none
        | n0 :: _ =>
          if n0 = '-' ∨ n0 = '=' then none
          else
            match splitFlagName name with
            | (key, some value) =>
              (match setFlag opt key value with
                | none => none
                | some opt1 => flagParse opt1 rest)
            | (key, none) =>
              (match rest with
                | [] => none
                | value :: rest1 =>
                  match setFlag opt key value with
                  | none => none
                  | some opt1 => flagParse opt1 rest1)
    | _ => some (opt, s :: rest)

/-- The last block of usage.go `parseArgs`: `if opt.run != ""` and the final
`return nil`. -/
def parseArgsRun (h : Host σ) (rest : List String) (opt : options) (w : World σ) :
    (options × error) × World σ :=
  if opt.run ≠ "" then
    match checkFolder h opt.run w with
    | (cf, w1) =>
      if cf ≠ dirCheckResponse.isDir then
        ((opt, some (GoError.errorString ("invalid run folder " ++ opt.run))), w1)
      else if opt.srcFolder ≠ "" then
        ((opt, some (GoError.errorString "the -f srcFolder is not used with --run")), w1)
      else
        match (if opt.mountPoint ≠ "" then checkEmptyDir h opt.mountPoint w1
          else (none, w1)) with
        | (err, w2) =>
          match err with
          | some e =>
            ((opt, some (GoError.errorString
              ("Mountpoint " ++ opt.mountPoint ++ " error: " ++ e.Error))), w2)
          | none =>
            if opt.mountPoint = opt.run then
              ((opt, some (GoError.errorString "mountPoint may not be same as run folder")), w2)
            else
              match rest with
              | [] => (({ opt with runCmd := [] }, newUsageErr "Command required for -run"), w2)
              | runExePath :: args =>
                match osStat h runExePath w2 with
                | ((reInfo, err), w3) =>
                  match err with
                  | some _ =>
                    (match execLookPath h runExePath w3 with
                      | ((foundPath, err), w4) =>
                        if err = none ∧ foundPath ≠ runExePath then
                          (({ opt with runCmd := foundPath :: args }, none), w4)
                        else
                          (({ opt with runCmd := runExePath :: args },
                            some (GoError.errorString
                              ("run program " ++ runExePath ++ " not found: " ++ fmtV err))), w4))
                  | none =>
                    if !reInfo.IsRegular ∨ (reInfo.mode &&& 0o111) = 0 then
                      (({ opt with runCmd := runExePath :: args },
                        some (GoError.errorString
                          ("run program " ++ runExePath ++
                            " permission error or not executable: " ++ fmtV none))), w3)
                    else
                      (({ opt with runCmd := runExePath :: args }, none), w3)
  else ((opt, none), w)

/-- The init block of usage.go `parseArgs` after the folder itself is dealt
with: the checks of `srcFolder` and `mountPoint`, then the rest of the
function. -/
def parseArgsInitTail (h : Host σ) (rest : List String) (opt : options) (w : World σ) :
    (options × error) × World σ :=
  match (if opt.srcFolder ≠ "" then checkFolder h opt.srcFolder w
    else (dirCheckResponse.isDir, w)) with
  | (cf, w1) =>
    if opt.srcFolder ≠ "" ∧ cf ≠ dirCheckResponse.isDir then
      ((opt, some (GoError.errorString
        ("init from srcFolder " ++ opt.srcFolder ++ " invalid"))), w1)
    else if opt.mountPoint ≠ "" then
      ((opt, some (GoError.errorString "mountPoint arg is not used with init")), w1)
    else parseArgsRun h rest opt w1

/-- usage.go `parseArgs` on the command line `args` (`os.Args[1:]`). The
result is `none` when `flag.Parse` ends the process; otherwise it is the
options as left in `*opt`, the returned error and the world. -/
def parseArgs (h : Host σ) (args : List String) (opt : options) (w : World σ) :
    Option ((options × error) × World σ) :=
  match flagParse { opt with run := "", init := "", srcFolder := "", mountPoint := "" } args with
  | none => none
  | some (opt, rest) =>
    if (opt.run ≠ "" ∧ opt.init ≠ "") ∨ (opt.run = "" ∧ opt.init = "") then
      some ((opt, newUsageErr
        "One of the flags (--run/-r) or (--init/-i) must be specified."), w)
    else if opt.init ≠ "" then
      match checkFolder h opt.init w with
      | (cf, w1) =>
        if cf = dirCheckResponse.isNotDir then
          some ((opt, some (GoError.errorString
            ("invalid init path: not a directory " ++ opt.init))), w1)
        else if cf = dirCheckResponse.isDir then
          match checkEmptyDir h opt.init w1 with
          | (err, w2) =>
            match err with
            | some e => some ((opt, some e), w2)
            | none => some (parseArgsInitTail h rest opt w2)
        else
          match osMkdirAll h opt.init 0o700 w1 with
          | (err, w2) =>
            match err with
            | some e =>
              some ((opt, some (GoError.errorString
                ("creating init path " ++ opt.init ++ ": " ++ e.Error))), w2)
            | none => some (parseArgsInitTail h rest opt w2)
    else some (parseArgsRun h rest opt w)

/-- emount.go `main`: the world the process leaves behind, or `none` when it
ends early (by the flag package or by a panic). -/
def main (h : Host σ) (args : List String) (w : World σ) : Option (World σ) :=
  match parseArgs h args
    { run := "", init := "", srcFolder := "", mountPoint := "", runCmd := [] } w with
  | none => none
  | some ((opt, err), w1) =>
    match err with
    | some _ => some w1
    | none =>
      let w2 := if opt.init ≠ "" then (initCryptVol h opt.init opt.srcFolder w1).2 else w1
      if opt.run ≠ "" then (decryptAndRun h opt w2).map Prod.snd
      else some w2

/-! ## A concrete host

A small simulated machine on which the definitions above can be evaluated. -/

/-- State of the simulated machine. -/
structure Sim where
  /-- environment variables -/
  env : List (String × String)
  /-- what the terminal hands to `ReadPassword`, in order -/
  tty : List (String × error)
  /-- existing paths: mode and, for a directory, whether it has an entry -/
  nodes : List (String × Nat × Bool)
  /-- paths `MkdirAll` cannot create (a parent is a regular file) -/
  noMkdir : List String
  /-- programs found by PATH lookup -/
  inPath : List (String × String)
  /-- passphrase of the encrypted volume -/
  passphrase : String
  /-- exit codes of user programs that fail -/
  exits : List (String × Int)
  /-- whether the unmount syscall is refused -/
  unmountDenied : Bool
  /-- whether the recursive copy meets an unreadable file -/
  copyFails : Bool
deriving DecidableEq, Repr

/-- Look a path up among the nodes. -/
def Sim.node (s : Sim) (path : String) : Option (Nat × Bool) :=
  s.nodes.lookup path

/-- The simulated host, for either build tag. -/
def simHost (darwin : Bool) : Host Sim where
  darwin := darwin
  getenv := fun s key => (s.env.lookup key).getD ""
  environ := fun s => s.env.map (fun kv => kv.1 ++ "=" ++ kv.2)
  stat := fun s path =>
    match s.node path with
    | some (mode, _) => ({ mode := mode }, none)
    | none => ({ mode := 0 }, some (GoError.sysError "no such file or directory"))
  osOpen := fun s path =>
    match s.node path with
    | some _ => (s.nodes.findIdx (fun n => n.1 == path), none)
    | none => (0, some (GoError.sysError "no such file or directory"))
  fileStat := fun s fd =>
    match s.nodes.get? fd with
    | some (_, mode, _) => ({ mode := mode }, none)
    | none => ({ mode := 0 }, some (GoError.sysError "bad file descriptor"))
  readdir := fun s fd =>
    match s.nodes.get? fd with
    | some (_, _, true) => none
    | some (_, _, false) => some GoError.eof
    | none => some (GoError.sysError "bad file descriptor")
  mkdirAll := fun s path perm =>
    if path ∈ s.noMkdir then (some (GoError.sysError "not a directory"), s)
    else (none, { s with nodes := s.nodes ++ [(path, ModeDir ||| perm, false)] })
  tempDir := fun s _ pattern =>
    (("/tmp/" ++ pattern ++ "1", none),
      { s with nodes := s.nodes ++ [("/tmp/" ++ pattern ++ "1", ModeDir ||| 0o700, false)] })
  removeAll := fun s path =>
    (none, { s with nodes := s.nodes.filter (fun n => n.1 != path) })
  remove := fun s path =>
    (none, { s with nodes := s.nodes.filter (fun n => n.1 != path) })
  lookPath := fun s file =>
    match s.inPath.lookup file with
    | some found => (found, none)
    | none => ("", some (GoError.sysError "executable file not found in $PATH"))
  run := fun s cmd =>
    if cmd.path = "gocryptfs" then
      if cmd.args.take 2 = ["gocryptfs", "-init"] then
        ({ out := "", err := none }, { s with passphrase := cmd.stdin.getD "" })
      else if cmd.stdin = some s.passphrase then ({ out := "", err := none }, s)
      else ({ out := "Password incorrect.", err := some (GoError.exitError 12) }, s)
    else
      match s.exits.lookup cmd.path with
      | some rc => ({ out := "", err := some (GoError.exitError rc) }, s)
      | none => ({ out := "", err := none }, s)
  unmount := fun s _ _ =>
    if s.unmountDenied then (some (GoError.sysError "operation not permitted"), s)
    else (none, s)
  readPassword := fun s =>
    match s.tty with
    | [] => (("", some (GoError.sysError "inappropriate ioctl for device")), s)
    | r :: rest => (r, { s with tty := rest })
  copy := fun s _ _ =>
    if s.copyFails then (some (GoError.sysError "permission denied"), s) else (none, s)
  passwordEntropy := fun p => ((4 * p.length : ℕ) : ℚ)

/-- A machine with an encrypted volume at /vault, an empty directory /mnt, a
regular file /etc/passwd and a shell. -/
def sim0 : Sim where
  env := [("HOME", "/root")]
  tty := []
  nodes := [("/vault", ModeDir ||| 0o700, true), ("/mnt", ModeDir ||| 0o700, false),
    ("/etc/passwd", 0o644, false), ("/bin/sh", 0o755, false)]
  noMkdir := ["/etc/passwd/x"]
  inPath := [("sh", "/bin/sh"), ("fusermount", "/bin/fusermount")]
  passphrase := "correct horse"
  exits := [("/bin/false", 1)]
  unmountDenied := false
  copyFails := false

/-- A world over `s` in which no call has been made yet. -/
def World.start (s : σ) : World σ :=
  { st := s, trace := [] }

/-- The machine `sim0` with a weak passphrase in EMOUNT_PASSWORD. -/
def simWeakEnv : Sim :=
  { sim0 with env := [("EMOUNT_PASSWORD", "a")] }

/-- The machine `sim0` with a user who types a passphrase twice. -/
def simTyped : Sim :=
  { sim0 with tty := [("horse-table", none), ("horse-table", none)] }

/-- The machine `sim0` with the passphrase of the volume in EMOUNT_PASSWORD. -/
def simEnvPass : Sim :=
  { sim0 with env := [("EMOUNT_PASSWORD", "correct horse")] }

/-- Options as `parseArgs` leaves them for: -r /vault -m /mnt /bin/sh -c true. -/
def optShell : options :=
  { run := "/vault", init := "", srcFolder := "", mountPoint := "/mnt",
    runCmd := ["/bin/sh", "-c", "true"] }

/-- Options as `parseArgs` leaves them for: -r /vault /bin/false. -/
def optFalse : options :=
  { run := "/vault", init := "", srcFolder := "", mountPoint := "",
    runCmd := ["/bin/false"] }

/-- The machine `simEnvPass` on which the recursive copy fails. -/
def simCopyFails : Sim :=
  { simEnvPass with copyFails := true }

/-- The machine `sim0` on which the unmount syscall is refused. -/
def simDenied : Sim :=
  { sim0 with unmountDenied := true }

/-! ## Vocabulary for statements about traces -/

/-- The command `mountCrypt` hands to `exec`. -/
def mountCmd (cryptPath mountPoint encPass : String) : Cmd :=
  { path := "gocryptfs", args := ["gocryptfs", "-q", "--", cryptPath, mountPoint],
    env := none, stdin := some encPass, capture := true }

/-- The command `initCryptVol` hands to `exec`. -/
def initCmd (path encPass : String) : Cmd :=
  { path := "gocryptfs", args := ["gocryptfs", "-init", "-q", "--", path],
    env := none, stdin := some encPass, capture := true }

/-- The command `runCommand` hands to `exec` for a non-empty `runCmd`. -/
def userCmd (runCmd : List String) (env : List String) : Cmd :=
  { path := runCmd.headD "", args := runCmd, env := some env, stdin := none, capture := false }

/-- The trace `t2` continues `t1` by calls that all satisfy `P`. -/
def TraceExt (P : Event → Prop) (t1 t2 : List Event) : Prop :=
  ∃ d, t2 = t1 ++ d ∧ ∀ e ∈ d, P e

/-- Whether a call is the unmount syscall. -/
def Event.isUnmount : Event → Bool
  | Event.unmount _ _ => true
  | _ => false

/-- Whether a call removes a path (`os.Remove` or `os.RemoveAll`). -/
def Event.isRemoval : Event → Bool
  | Event.remove _ => true
  | Event.removeAll _ => true
  | _ => false

/-- Whether a call runs the tool with `-init`. -/
def Event.isInitRun : Event → Bool
  | Event.run cmd _ => cmd.args.take 2 == ["gocryptfs", "-init"]
  | _ => false

/-- A call that runs the tool with `-init` feeds it a passphrase whose entropy
is at least `minEntropy`. -/
def Event.initStrong (h : Host σ) (e : Event) : Prop :=
  ∀ cmd res, e = Event.run cmd res → cmd.args.take 2 = ["gocryptfs", "-init"] →
    ∃ p, cmd.stdin = some p ∧ minEntropy ≤ h.passwordEntropy p

/-- The simulated host on a machine whose temporary folder is full: `TempDir`
fails and creates nothing. -/
def simHostNoTmp : Host Sim :=
  { simHost false with
    tempDir := fun s _ _ => (("", some (GoError.sysError "no space left on device")), s) }

/-- A call that runs a process on a buffer as standard input, as the runs of
the tool are, is not given the empty passphrase. -/
def Event.passNonEmpty (e : Event) : Prop :=
  ∀ cmd res, e = Event.run cmd res → cmd.stdin ≠ some ""

/-- The machine `sim0` with a user who enters only blanks at the prompt. -/
def simBlank : Sim :=
  { sim0 with tty := [("   ", none)] }

/-! ## General facts used by several results -/

/-- The run block of `parseArgs` only ever rewrites `runCmd`. -/
theorem parseArgsRun_keeps_flags (h : Host σ) (rest : List String) (opt : options)
    (w : World σ) :
    (parseArgsRun h rest opt w).1.1.run = opt.run ∧
    (parseArgsRun h rest opt w).1.1.init = opt.init ∧
    (parseArgsRun h rest opt w).1.1.srcFolder = opt.srcFolder ∧
    (parseArgsRun h rest opt w).1.1.mountPoint = opt.mountPoint := by
  unfold parseArgsRun
  repeat' split
  all_goals simp

/-- The init block of `parseArgs` leaves the four flag variables alone. -/
theorem parseArgsInitTail_keeps_flags (h : Host σ) (rest : List String) (opt : options)
    (w : World σ) :
    (parseArgsInitTail h rest opt w).1.1.run = opt.run ∧
    (parseArgsInitTail h rest opt w).1.1.init = opt.init ∧
    (parseArgsInitTail h rest opt w).1.1.srcFolder = opt.srcFolder ∧
    (parseArgsInitTail h rest opt w).1.1.mountPoint = opt.mountPoint := by
  unfold parseArgsInitTail
  repeat' split
  all_goals first
    | exact parseArgsRun_keeps_flags h rest opt _
    | simp

/-- After `flag.Parse`, `parseArgs` leaves the four flag variables as parsed. -/
theorem parseArgs_keeps_flags (h : Host σ) (args : List String) (opt0 : options)
    (w : World σ) (fl : options) (rest : List String)
    (hparse : flagParse { opt0 with run := "", init := "", srcFolder := "", mountPoint := "" }
      args = some (fl, rest))
    (r : (options × error) × World σ) (hr : parseArgs h args opt0 w = some r) :
    r.1.1.run = fl.run ∧ r.1.1.init = fl.init ∧ r.1.1.srcFolder = fl.srcFolder ∧
    r.1.1.mountPoint = fl.mountPoint := by
  unfold parseArgs at hr
  rw [hparse] at hr
  simp only at hr
  have hk := parseArgsRun_keeps_flags h rest fl
  have hk2 := parseArgsInitTail_keeps_flags h rest fl
  repeat' split at hr
  all_goals
    simp only [Option.some.injEq] at hr
    subst hr
    first | exact hk _ | exact hk2 _ | simp

theorem TraceExt.refl (P : Event → Prop) (t : List Event) : TraceExt P t t :=
  ⟨[], by simp, by simp⟩

theorem TraceExt.trans {P : Event → Prop} {t1 t2 t3 : List Event}
    (h12 : TraceExt P t1 t2) (h23 : TraceExt P t2 t3) : TraceExt P t1 t3 := by
  obtain ⟨d1, e1, p1⟩ := h12
  obtain ⟨d2, e2, p2⟩ := h23
  refine ⟨d1 ++ d2, by rw [e2, e1, List.append_assoc], ?_⟩
  intro e he
  rcases List.mem_append.mp he with he | he
  · exact p1 e he
  · exact p2 e he

theorem TraceExt.mono {P Q : Event → Prop} {t1 t2 : List Event}
    (hPQ : ∀ e, P e → Q e) (h12 : TraceExt P t1 t2) : TraceExt Q t1 t2 := by
  obtain ⟨d, e1, p1⟩ := h12
  exact ⟨d, e1, fun e he => hPQ e (p1 e he)⟩

/-- One more call in the trace. -/
theorem TraceExt.snoc {P : Event → Prop} {t1 t2 : List Event} (h12 : TraceExt P t1 t2)
    (e : Event) (he : P e) : TraceExt P t1 (t2 ++ [e]) :=
  h12.trans ⟨[e], rfl, by simpa using he⟩

/-- A property of all calls carries over an extension by calls that have it. -/
theorem TraceExt.all {P : Event → Prop} {t1 t2 : List Event} (h12 : TraceExt P t1 t2)
    (h1 : ∀ e ∈ t1, P e) : ∀ e ∈ t2, P e := by
  obtain ⟨d, e1, p1⟩ := h12
  intro e he
  rw [e1] at he
  rcases List.mem_append.mp he with he | he
  · exact h1 e he
  · exact p1 e he

/-- An extension by calls on which `p` is false keeps the number of calls on
which it is true. -/
theorem TraceExt.countP_eq {p : Event → Bool} {t1 t2 : List Event}
    (h12 : TraceExt (fun e => p e = false) t1 t2) :
    t2.countP p = t1.countP p := by
  obtain ⟨d, e1, p1⟩ := h12
  rw [e1, List.countP_append]
  have : d.countP p = 0 := by
    rw [List.countP_eq_zero]
    intro e he
    simp [p1 e he]
  omega

/-- One call is made by `terminalGetSecret`, a read of the terminal. -/
theorem terminalGetSecret_trace (h : Host σ) (prompt : String) (w : World σ) :
    (terminalGetSecret h prompt w).2.trace
      = w.trace ++ [Event.readPassword (h.readPassword w.st).1] := by
  unfold terminalGetSecret terminalReadPassword
  split
  rename_i hh
  simp only [Prod.mk.injEq] at hh
  obtain ⟨-, rfl⟩ := hh
  split <;> rfl

/-- The value `terminalGetSecret` returns, from what the terminal delivered. -/
theorem terminalGetSecret_value (h : Host σ) (prompt : String) (w : World σ) :
    (terminalGetSecret h prompt w).1 =
      (match (h.readPassword w.st).1.2 with
        | some e => ("", some e)
        | none => (trimSpace (h.readPassword w.st).1.1, none)) := by
  unfold terminalGetSecret terminalReadPassword
  split
  rename_i hh
  simp only [Prod.mk.injEq] at hh
  obtain ⟨h1, -⟩ := hh
  rw [h1]
  split <;> rfl

/-- The loop of `promptNewPassword` only reads the terminal. -/
theorem promptNewPasswordLoop_ext (h : Host σ) (prompt : String) (m : ℚ) (n : Nat)
    (w : World σ) :
    TraceExt (fun e => ∃ r, e = Event.readPassword r) w.trace
      (promptNewPasswordLoop h prompt m n w).2.trace := by
  induction n generalizing w with
  | zero => exact TraceExt.refl _ _
  | succ n ih =>
    have hstep : ∀ (pr : String) (w0 : World σ),
        TraceExt (fun e => ∃ r, e = Event.readPassword r) w0.trace
          (terminalGetSecret h pr w0).2.trace :=
      fun pr w0 => ⟨_, terminalGetSecret_trace h pr w0, by
        intro e he
        exact ⟨_, List.mem_singleton.mp he⟩⟩
    unfold promptNewPasswordLoop
    split
    rename_i password err w1 h1
    have e1 : w1 = (terminalGetSecret h prompt w).2 := by rw [h1]
    split
    · exact e1 ▸ hstep _ _
    · split
      · exact (e1 ▸ hstep prompt w).trans (ih w1)
      · split
        rename_i confirm err2 w2 h2
        have e2 : w2 = (terminalGetSecret h "Confirm password:" w1).2 := by rw [h2]
        have h02 : TraceExt (fun e => ∃ r, e = Event.readPassword r) w.trace w2.trace :=
          (e1 ▸ hstep prompt w).trans (e2 ▸ hstep _ w1)
        split
        · exact h02.trans (ih w2)
        · split
          · exact h02.trans (ih w2)
          · exact h02

/-- A password that the loop of `promptNewPassword` returns without error is
non-empty, scores at least the required entropy and was typed twice: the last
two reads of the terminal both succeeded and both trim to it. -/
theorem promptNewPasswordLoop_ok (h : Host σ) (prompt : String) (m : ℚ) (n : Nat)
    (w : World σ) (p : String) (w2 : World σ)
    (hr : promptNewPasswordLoop h prompt m n w = ((p, none), w2)) :
    p ≠ "" ∧ m ≤ h.passwordEntropy p ∧
    ∃ t raw1 raw2, w2.trace = t ++ [Event.readPassword (raw1, none),
        Event.readPassword (raw2, none)] ∧ trimSpace raw1 = p ∧ trimSpace raw2 = p := by
  induction n generalizing w with
  | zero => simp [promptNewPasswordLoop] at hr
  | succ n ih =>
    unfold promptNewPasswordLoop at hr
    split at hr
    rename_i password err w1 h1
    have t1 := terminalGetSecret_trace h prompt w
    have v1 := terminalGetSecret_value h prompt w
    rw [h1] at t1 v1
    split at hr
    · simp at hr
    · split at hr
      · exact ih w1 hr
      · rename_i hweak
        split at hr
        rename_i confirm err2 w2a h2
        have t2 := terminalGetSecret_trace h "Confirm password:" w1
        have v2 := terminalGetSecret_value h "Confirm password:" w1
        rw [h2] at t2 v2
        split at hr
        · exact ih w2a hr
        · split at hr
          · exact ih w2a hr
          · rename_i hsame
            simp only [Prod.mk.injEq] at hr
            obtain ⟨⟨rfl, -⟩, rfl⟩ := hr
            simp only [not_or, not_lt, ne_eq, Decidable.not_not] at hweak hsame
            refine ⟨?_, hweak.2, ?_⟩
            · intro hp
              exact hweak.1 (by rw [hp]; rfl)
            · simp only at t1 v1 t2 v2
              cases hA : (h.readPassword w.st).1.2 with
              | some e => rw [hA] at v1; simp at v1
              | none =>
                cases hB : (h.readPassword w1.st).1.2 with
                | some e => rw [hB] at v2; simp at v2
                | none =>
                  rw [hA] at v1
                  rw [hB] at v2
                  simp only [Prod.mk.injEq, and_true] at v1 v2
                  refine ⟨w.trace, (h.readPassword w.st).1.1, (h.readPassword w1.st).1.1, ?_,
                    v1.symm, ?_⟩
                  · rw [t2, t1, List.append_assoc]
                    have eA : (h.readPassword w.st).1 = ((h.readPassword w.st).1.1, none) := by
                      rw [← hA]
                    have eB : (h.readPassword w1.st).1 = ((h.readPassword w1.st).1.1, none) := by
                      rw [← hB]
                    rw [← eA, ← eB]
                    rfl
                  · rw [← v2, hsame]

/-- The calls `mountCrypt` makes: at most a `TempDir`, the run of the tool,
and at most a `RemoveAll`. -/
theorem mountCrypt_ext (h : Host σ) (cryptPath mountPoint encPass : String) (w : World σ) :
    TraceExt (fun e => (∃ r, e = Event.tempDir "" tmpFolderPattern r) ∨
        (∃ mp res, e = Event.run (mountCmd cryptPath mp encPass) res) ∨
        (∃ mp, e = Event.removeAll mp)) w.trace
      (mountCrypt h cryptPath mountPoint encPass w).2.trace := by
  simp only [mountCrypt, mountCryptAt, ioutilTempDir, cmdRun, osRemoveAll]
  repeat' split
  all_goals simp only [TraceExt, List.append_assoc]
  all_goals first
    | (refine ⟨_, rfl, ?_⟩; simp [mountCmd]; done)
    | (refine ⟨_, rfl, ?_⟩; simp [mountCmd]; exact ⟨_, _, rfl⟩)

/-- A successful `mountCrypt` returns the mount point it was given, or the
temporary directory that `TempDir` created. -/
theorem mountCrypt_ok_path (h : Host σ) (cryptPath mountPoint encPass : String)
    (w : World σ) (mp : String)
    (hm : (mountCrypt h cryptPath mountPoint encPass w).1 = (mp, none)) :
    (mountPoint ≠ "" → mp = mountPoint) ∧
    (mountPoint = "" → (h.tempDir w.st "" tmpFolderPattern).1 = (mp, none)) := by
  simp only [mountCrypt, mountCryptAt, ioutilTempDir, cmdRun, osRemoveAll] at hm
  repeat' split at hm
  all_goals simp only [Prod.mk.injEq, and_true, and_false, reduceCtorEq] at hm
  · subst hm
    exact ⟨fun hne => absurd ‹mountPoint = ""› hne, fun _ => Prod.ext rfl ‹_›⟩
  · subst hm
    exact ⟨fun _ => rfl, fun he => absurd he ‹¬ mountPoint = ""›⟩

/-- On a non-empty slice `runCommand` is its body. -/
theorem runCommand_cons (h : Host σ) (c : String) (cs env : List String) (w : World σ) :
    runCommand h (c :: cs) env w = some (runCommandAt h c (c :: cs) env w) :=
  rfl

/-- The body of `runCommand` makes one call, the run of the command. -/
theorem runCommandAt_trace (h : Host σ) (c : String) (l env : List String) (w : World σ) :
    (runCommandAt h c l env w).2.trace = w.trace ++
      [Event.run { path := c, args := l, env := some env, stdin := none, capture := false }
        (h.run w.st
          { path := c, args := l, env := some env, stdin := none, capture := false }).1] := by
  simp only [runCommandAt, cmdRun]
  repeat' split
  all_goals rfl

/-- The calls `unmountVol` makes: first the unmount syscall on the path, then
at most a PATH lookup of fusermount and a run of it. -/
theorem unmountVol_ext (h : Host σ) (path : String) (w : World σ) :
    ∃ flags d, (unmountVol h path w).2.trace = w.trace ++ Event.unmount path flags :: d ∧
      ∀ e ∈ d, (e = Event.lookPath "fusermount") ∨
        (∃ fm env res, e = Event.run (userCmd [fm, "-u", path] env) res) := by
  simp only [unmountVol, unmountVolDarwin, unmountVolLinux, runCommandAt, syscallUnmount,
    execLookPath, cmdRun, World.log]
  repeat' split
  all_goals simp only [List.append_assoc, List.singleton_append]
  all_goals refine ⟨_, _, rfl, ?_⟩
  all_goals simp [userCmd]

/-- The calls `unmountVol` makes are neither removals nor runs of the tool
with `-init`. -/
theorem unmountVol_quiet (h : Host σ) (path : String) (w : World σ) :
    TraceExt (fun e => e.isInitRun = false ∧ e.isRemoval = false) w.trace
      (unmountVol h path w).2.trace := by
  obtain ⟨flags, d, hd, hall⟩ := unmountVol_ext h path w
  refine ⟨_, hd, ?_⟩
  intro e he
  rcases List.mem_cons.mp he with rfl | he
  · exact ⟨rfl, rfl⟩
  · rcases hall e he with rfl | ⟨fm, env, res, rfl⟩
    · exact ⟨rfl, rfl⟩
    · refine ⟨?_, rfl⟩
      simp [Event.isInitRun, userCmd]

/-- The calls `initialCopy` makes never run the tool with `-init`. -/
theorem initialCopy_ext (h : Host σ) (cryptPath password initFrom : String) (w : World σ) :
    TraceExt (fun e => e.isInitRun = false) w.trace
      (initialCopy h cryptPath password initFrom w).2.trace := by
  have hmount : TraceExt (fun e => e.isInitRun = false) w.trace
      (mountCrypt h cryptPath "" password w).2.trace := by
    refine (mountCrypt_ext h cryptPath "" password w).mono ?_
    rintro e (⟨r, rfl⟩ | ⟨mp, res, rfl⟩ | ⟨mp, rfl⟩)
    · rfl
    · simp [Event.isInitRun, mountCmd]
    · rfl
  simp only [initialCopy, copyCopy, osRemoveAll]
  repeat' split
  · exact hmount
  · exact (hmount.snoc _ (by rfl)).snoc _ (by rfl)
  · refine TraceExt.snoc ?_ _ (by rfl)
    refine TraceExt.trans ?_ ((unmountVol_quiet h _ _).mono fun e he => he.1)
    exact hmount.snoc _ (by rfl)

/-- A call that does not run the tool with `-init` needs no strong passphrase. -/
theorem Event.initStrong_of_not_initRun (h : Host σ) (e : Event)
    (he : e.isInitRun = false) : e.initStrong h := by
  intro cmd res hrun hargs
  subst hrun
  simp [Event.isInitRun, hargs] at he

/-- The calls `initCryptVol` makes once it has the passphrase: the only run of
the tool with `-init` is fed that passphrase. -/
theorem initCryptVolWith_ext (h : Host σ) (path initFrom encPass : String) (w : World σ) :
    TraceExt (fun e => e.isInitRun = false ∨ ∃ res, e = Event.run (initCmd path encPass) res)
      w.trace (initCryptVolWith h path initFrom encPass w).2.trace := by
  have hcopy : ∀ w3 : World σ,
      TraceExt (fun e => e.isInitRun = false ∨ ∃ res, e = Event.run (initCmd path encPass) res)
        w3.trace (initialCopy h path encPass initFrom w3).2.trace :=
    fun w3 => (initialCopy_ext h path encPass initFrom w3).mono fun e he => Or.inl he
  have hpre : ∀ s res, TraceExt
      (fun e => e.isInitRun = false ∨ ∃ res, e = Event.run (initCmd path encPass) res) w.trace
      ((⟨s, (w.trace ++ [Event.mkdirAll path dirMode]) ++
        [Event.run (initCmd path encPass) res]⟩ : World σ)).trace :=
    fun s res => ((TraceExt.refl _ _).snoc _ (Or.inl rfl)).snoc _ (Or.inr ⟨_, rfl⟩)
  simp only [initCryptVolWith, osMkdirAll, cmdRun]
  repeat' split
  all_goals first
    | exact TraceExt.refl _ _
    | exact (TraceExt.refl _ _).snoc _ (Or.inl rfl)
    | exact hpre _ _
    | exact (hpre _ _).trans (hcopy _)

/-- With the passphrase obtained (from EMOUNT_PASSWORD, else from the
terminal), `decryptAndRun` is the rest of its body. -/
theorem decryptAndRun_eq_with (h : Host σ) (opt : options) (w w1 : World σ) (encPass : String)
    (hpass : (if h.getenv w.st envPasswordKey = "" then
        terminalGetSecret h "Enter encryption passphrase: " w
      else ((h.getenv w.st envPasswordKey, none), w)) = ((encPass, none), w1)) :
    decryptAndRun h opt w = decryptAndRunWith h opt encPass w1 := by
  unfold decryptAndRun
  by_cases hg : h.getenv w.st envPasswordKey = ""
  · rw [if_pos hg] at hpass ⊢
    rw [hpass]
  · rw [if_neg hg] at hpass ⊢
    simp only [Prod.mk.injEq, and_true] at hpass
    rw [hpass.1, hpass.2]

/-- Obtaining the passphrase makes no call but reads of the terminal. -/
theorem passphrase_ext (h : Host σ) (w w1 : World σ) (r : String × error)
    (hpass : (if h.getenv w.st envPasswordKey = "" then
        terminalGetSecret h "Enter encryption passphrase: " w
      else ((h.getenv w.st envPasswordKey, none), w)) = (r, w1)) :
    TraceExt (fun e => ∃ res, e = Event.readPassword res) w.trace w1.trace := by
  by_cases hg : h.getenv w.st envPasswordKey = ""
  · rw [if_pos hg] at hpass
    have ht := terminalGetSecret_trace h "Enter encryption passphrase: " w
    rw [hpass] at ht
    exact ⟨_, ht, fun e he => ⟨_, List.mem_singleton.mp he⟩⟩
  · rw [if_neg hg] at hpass
    simp only [Prod.mk.injEq] at hpass
    rw [← hpass.2]
    exact TraceExt.refl _ _

/-- After a successful mount on `mp`, `decryptAndRun` runs the user command,
then unmounts `mp`, and returns nil; what follows the unmount syscall holds no
further unmount. -/
theorem decryptAndRunWith_ok (h : Host σ) (opt : options) (encPass : String)
    (w w2 : World σ) (mp : String) (hcmd : opt.runCmd ≠ []) (hne : encPass ≠ "")
    (hmount : mountCrypt h opt.run opt.mountPoint encPass w = ((mp, none), w2)) :
    ∃ w3 flags d, decryptAndRunWith h opt encPass w = some (none, w3) ∧
      w3.trace = w2.trace ++
        Event.run (userCmd opt.runCmd (h.environ w2.st ++ [envFolderKey ++ "=" ++ mp]))
          (h.run w2.st
            (userCmd opt.runCmd (h.environ w2.st ++ [envFolderKey ++ "=" ++ mp]))).1
        :: Event.unmount mp flags :: d ∧
      ∀ e ∈ d, e.isUnmount = false := by
  obtain ⟨c, cs, hc⟩ := List.exists_cons_of_ne_nil hcmd
  unfold decryptAndRunWith
  rw [if_neg hne, hmount]
  simp only
  rw [hc, runCommand_cons]
  simp only
  have ht := runCommandAt_trace h c (c :: cs) (h.environ w2.st ++ [envFolderKey ++ "=" ++ mp]) w2
  obtain ⟨flags, d, hd, hall⟩ := unmountVol_ext h mp
    (runCommandAt h c (c :: cs) (h.environ w2.st ++ [envFolderKey ++ "=" ++ mp]) w2).2
  rw [ht] at hd
  have hquiet : ∀ e ∈ d, e.isUnmount = false := by
    intro e he
    rcases hall e he with rfl | ⟨fm, env, res, rfl⟩ <;> rfl
  rcases hU : unmountVol h mp
    (runCommandAt h c (c :: cs) (h.environ w2.st ++ [envFolderKey ++ "=" ++ mp]) w2).2
    with ⟨err, w4⟩
  rw [hU] at hd
  simp only at hd
  cases err with
  | some e =>
    refine ⟨w4, flags, d, rfl, ?_, hquiet⟩
    rw [hd]
    simp [userCmd]
  | none =>
    by_cases hm : opt.mountPoint = ""
    · refine ⟨(osRemove h mp w4).2, flags, d ++ [Event.remove mp], by simp [hm], ?_, ?_⟩
      · simp only [osRemove, hd]
        simp [userCmd]
      · intro e he
        rcases List.mem_append.mp he with he | he
        · exact hquiet e he
        · rw [List.mem_singleton.mp he]
          rfl
    · refine ⟨w4, flags, d, by simp [hm], ?_, hquiet⟩
      rw [hd]
      simp [userCmd]

/-- The result of `checkFolder` on a non-empty path, from what `os.Stat` reports. -/
theorem checkFolder_eq (h : Host σ) (path : String) (w : World σ) (hp : path ≠ "") :
    checkFolder h path w =
      ((if (h.stat w.st path).2 ≠ none then dirCheckResponse.invalidPath
        else if (h.stat w.st path).1.IsDir then dirCheckResponse.isDir
        else dirCheckResponse.isNotDir), w.log (Event.stat path)) := by
  unfold checkFolder osStat
  rw [if_neg hp]
  cases hs : (h.stat w.st path).2 <;> cases hd : (h.stat w.st path).1.IsDir <;> simp [hs, hd]

/-- The state of the host is never changed by `checkFolder`. -/
theorem checkFolder_st (h : Host σ) (path : String) (w : World σ) :
    (checkFolder h path w).2.st = w.st := by
  simp only [checkFolder, osStat, World.log]
  repeat' split
  all_goals rfl

/-- The state of the host is never changed by `checkEmptyDir`. -/
theorem checkEmptyDir_st (h : Host σ) (path : String) (w : World σ) :
    (checkEmptyDir h path w).2.st = w.st := by
  simp only [checkEmptyDir, osOpen, fileStat, fileReaddir, World.log]
  repeat' split
  all_goals rfl

/-- The result of `checkEmptyDir` is nil exactly when the path opens, the handle is a
directory and `Readdir(1)` reports the end of the directory. -/
theorem checkEmptyDir_none_iff (h : Host σ) (path : String) (w : World σ) :
    (checkEmptyDir h path w).1 = none ↔
      ((h.osOpen w.st path).2 = none ∧
        (h.fileStat w.st (h.osOpen w.st path).1).2 = none ∧
        (h.fileStat w.st (h.osOpen w.st path).1).1.IsDir = true ∧
        h.readdir w.st (h.osOpen w.st path).1 = some GoError.eof) := by
  simp only [checkEmptyDir, osOpen, fileStat, fileReaddir, World.log]
  repeat' split
  all_goals simp_all

/-- With only the init flag set, nothing is left to check after the folder. -/
theorem parseArgsInitTail_plain (h : Host σ) (rest : List String) (opt : options)
    (w : World σ) (hrun : opt.run = "") (hsrc : opt.srcFolder = "")
    (hmp : opt.mountPoint = "") :
    parseArgsInitTail h rest opt w = ((opt, none), w) := by
  simp [parseArgsInitTail, parseArgsRun, hrun, hsrc, hmp]

/-- The init block of `parseArgs` when only the init flag is set, by what
`os.Stat` reports for the folder. -/
theorem parseArgs_init_eq (h : Host σ) (args : List String) (opt0 : options) (w : World σ)
    (fl : options) (rest : List String)
    (hparse : flagParse { opt0 with run := "", init := "", srcFolder := "", mountPoint := "" }
      args = some (fl, rest))
    (hinit : fl.init ≠ "") (hrun : fl.run = "") (hsrc : fl.srcFolder = "")
    (hmp : fl.mountPoint = "") :
    parseArgs h args opt0 w =
      if (h.stat w.st fl.init).2 ≠ none then
        some ((fl, ((osMkdirAll h fl.init 0o700 (w.log (Event.stat fl.init))).1).map
            (fun e => GoError.errorString
              ("creating init path " ++ fl.init ++ ": " ++ e.Error))),
          (osMkdirAll h fl.init 0o700 (w.log (Event.stat fl.init))).2)
      else if (h.stat w.st fl.init).1.IsDir then
        some ((fl, (checkEmptyDir h fl.init (w.log (Event.stat fl.init))).1),
          (checkEmptyDir h fl.init (w.log (Event.stat fl.init))).2)
      else
        some ((fl, some (GoError.errorString
          ("invalid init path: not a directory " ++ fl.init))), w.log (Event.stat fl.init)) := by
  unfold parseArgs
  rw [hparse]
  simp only
  rw [if_neg (by simp [hrun, hinit]), if_pos hinit, checkFolder_eq h fl.init w hinit]
  simp only
  by_cases hs : (h.stat w.st fl.init).2 ≠ none
  · rw [if_pos hs]
    simp only [reduceCtorEq, if_false]
    rw [if_pos hs]
    cases hm : (osMkdirAll h fl.init 0o700 (w.log (Event.stat fl.init))).1 with
    | none => simp [parseArgsInitTail_plain h rest fl _ hrun hsrc hmp]
    | some e => simp
  · rw [if_neg hs, if_neg hs]
    by_cases hd : (h.stat w.st fl.init).1.IsDir = true
    · rw [if_pos hd, if_pos hd]
      simp only [reduceCtorEq, if_false, if_true]
      cases hm : (checkEmptyDir h fl.init (w.log (Event.stat fl.init))).1 with
      | none => simp [parseArgsInitTail_plain h rest fl _ hrun hsrc hmp]
      | some e => simp
    · rw [if_neg hd, if_neg hd]
      simp

/-- Once `flag.Parse` has returned, `parseArgs` returns. -/
theorem parseArgs_total (h : Host σ) (args : List String) (opt0 : options) (w : World σ)
    (fl : options) (rest : List String)
    (hparse : flagParse { opt0 with run := "", init := "", srcFolder := "", mountPoint := "" }
      args = some (fl, rest)) :
    ∃ r, parseArgs h args opt0 w = some r := by
  unfold parseArgs
  rw [hparse]
  simp only
  repeat' split
  all_goals exact ⟨_, rfl⟩

/-- A run block of `parseArgs` that succeeds with a mount point given has
seen `checkEmptyDir` accept the mount point and found it different from the
run folder. -/
theorem parseArgsRun_ok_mount (h : Host σ) (rest : List String) (opt : options)
    (w : World σ) (hrun : opt.run ≠ "") (hmp : opt.mountPoint ≠ "")
    (hr : (parseArgsRun h rest opt w).1.2 = none) :
    (checkEmptyDir h opt.mountPoint (checkFolder h opt.run w).2).1 = none ∧
    opt.mountPoint ≠ opt.run := by
  unfold parseArgsRun at hr
  rw [if_pos hrun] at hr
  simp only [hmp, ne_eq, not_false_eq_true, if_true] at hr
  cases hc : (checkEmptyDir h opt.mountPoint (checkFolder h opt.run w).2).1 with
  | some e =>
    exfalso
    split at hr
    · simp at hr
    · split at hr
      · simp at hr
      · simp [hc] at hr
  | none =>
    refine ⟨rfl, ?_⟩
    intro heq
    rw [heq] at hc
    split at hr
    · simp at hr
    · split at hr
      · simp at hr
      · simp [hc, heq] at hr

/-- When `parseArgs` accepts a command line with the run flag, the options
carry a command: `runCmd` is not empty. -/
theorem parseArgs_run_has_command (h : Host σ) (args : List String) (opt0 : options)
    (w : World σ) (opt : options) (w1 : World σ)
    (hr : parseArgs h args opt0 w = some ((opt, none), w1)) (hrun : opt.run ≠ "") :
    opt.runCmd ≠ [] := by
  unfold parseArgs at hr
  split at hr
  · simp at hr
  · rename_i fl rest hparse
    have hrunOk : ∀ w0 : World σ, parseArgsRun h rest fl w0 = ((opt, none), w1) →
        opt.runCmd ≠ [] := by
      intro w0 h0
      have hk := parseArgsRun_keeps_flags h rest fl w0
      rw [h0] at hk
      have hfl : fl.run ≠ "" := by rw [← hk.1]; exact hrun
      unfold parseArgsRun at h0
      rw [if_pos hfl] at h0
      simp only at h0
      repeat' split at h0
      all_goals simp only [Prod.mk.injEq, reduceCtorEq, and_false, false_and, newUsageErr] at h0
      all_goals
        obtain ⟨⟨rfl, -⟩, -⟩ := h0
        simp
    have htail : ∀ w0 : World σ, parseArgsInitTail h rest fl w0 = ((opt, none), w1) →
        opt.runCmd ≠ [] := by
      intro w0 h0
      unfold parseArgsInitTail at h0
      repeat' split at h0
      all_goals first
        | exact hrunOk _ h0
        | simp at h0
    repeat' split at hr
    all_goals simp only [Option.some.injEq] at hr
    all_goals first
      | exact hrunOk _ hr
      | exact htail _ hr
      | simp [newUsageErr] at hr

/-! ## C1 -/

/-- C1 as stated fails: on the command line -h neither flag is given, and on
-i a -r b -x both are given non-empty values, yet `parseArgs` returns no usage
error on either: `flag.Parse` ends the process on the help flag and on the
undefined flag, before the check of the two flags is reached. -/
theorem parseArgs_flag_package_exits_first :
    parseArgs (simHost false) ["-h"]
        { run := "", init := "", srcFolder := "", mountPoint := "", runCmd := [] }
        (World.start sim0) = none ∧
    parseArgs (simHost false) ["-i", "a", "-r", "b", "-x"]
        { run := "", init := "", srcFolder := "", mountPoint := "", runCmd := [] }
        (World.start sim0) = none ∧
    (¬ ∃ r, parseArgs (simHost false) ["-h"]
        { run := "", init := "", srcFolder := "", mountPoint := "", runCmd := [] }
        (World.start sim0) = some r ∧ isUsageErr r.1.2 = true) ∧
    (¬ ∃ r, parseArgs (simHost false) ["-i", "a", "-r", "b", "-x"]
        { run := "", init := "", srcFolder := "", mountPoint := "", runCmd := [] }
        (World.start sim0) = some r ∧ isUsageErr r.1.2 = true) := by
  have h1 : parseArgs (simHost false) ["-h"]
      { run := "", init := "", srcFolder := "", mountPoint := "", runCmd := [] }
      (World.start sim0) = none := rfl
  have h2 : parseArgs (simHost false) ["-i", "a", "-r", "b", "-x"]
      { run := "", init := "", srcFolder := "", mountPoint := "", runCmd := [] }
      (World.start sim0) = none := rfl
  refine ⟨h1, h2, ?_, ?_⟩
  · rintro ⟨r, hr, -⟩
    rw [h1] at hr
    exact absurd hr (by simp)
  · rintro ⟨r, hr, -⟩
    rw [h2] at hr
    exact absurd hr (by simp)

/-- C1, amended: for every command line that `flag.Parse` accepts, if both the run and
the init flag hold a non-empty value, or neither does, `parseArgs` returns a
usage error and the world is untouched (no host call, no state change);
whenever `parseArgs` succeeds exactly one of `opt.run` and `opt.init` is
non-empty; and `main` then continues with exactly one of `initCryptVol` and
`decryptAndRun`. -/
theorem parseArgs_exactly_one_of_run_init (h : Host σ) (args : List String)
    (opt0 : options) (w : World σ) (fl : options) (rest : List String)
    (hparse : flagParse { opt0 with run := "", init := "", srcFolder := "", mountPoint := "" }
      args = some (fl, rest)) :
    (((fl.run ≠ "" ∧ fl.init ≠ "") ∨ (fl.run = "" ∧ fl.init = "")) →
      ∃ e, parseArgs h args opt0 w = some ((fl, e), w) ∧ isUsageErr e = true) ∧
    (∀ opt w1, parseArgs h args opt0 w = some ((opt, none), w1) →
      ((opt.run ≠ "" ∧ opt.init = "") ∨ (opt.run = "" ∧ opt.init ≠ ""))) ∧
    (opt0 = { run := "", init := "", srcFolder := "", mountPoint := "", runCmd := [] } →
      ∀ opt w1, parseArgs h args opt0 w = some ((opt, none), w1) →
        ((opt.init ≠ "" ∧ opt.run = "" ∧
            main h args w = some (initCryptVol h opt.init opt.srcFolder w1).2) ∨
          (opt.run ≠ "" ∧ opt.init = "" ∧
            main h args w = (decryptAndRun h opt w1).map Prod.snd))) := by
  have hxor : ∀ opt w1, parseArgs h args opt0 w = some ((opt, none), w1) →
      ((opt.run ≠ "" ∧ opt.init = "") ∨ (opt.run = "" ∧ opt.init ≠ "")) := by
    intro opt w1 hr
    have hk := parseArgs_keeps_flags h args opt0 w fl rest hparse _ hr
    simp only at hk
    rw [hk.1, hk.2.1]
    unfold parseArgs at hr
    rw [hparse] at hr
    simp only at hr
    by_cases hc : (fl.run ≠ "" ∧ fl.init ≠ "") ∨ (fl.run = "" ∧ fl.init = "")
    · rw [if_pos hc] at hr
      simp [newUsageErr] at hr
    · by_cases h1 : fl.run = "" <;> by_cases h2 : fl.init = "" <;> simp_all
  refine ⟨?_, hxor, ?_⟩
  · intro hc
    refine ⟨newUsageErr "One of the flags (--run/-r) or (--init/-i) must be specified.", ?_, rfl⟩
    unfold parseArgs
    rw [hparse]
    simp only
    rw [if_pos hc]
  · intro h0 opt w1 hr
    subst h0
    rcases hxor opt w1 hr with ⟨hrun, hinit⟩ | ⟨hrun, hinit⟩
    · right
      refine ⟨hrun, hinit, ?_⟩
      unfold main
      rw [hr]
      simp [hrun, hinit]
    · left
      refine ⟨hinit, hrun, ?_⟩
      unfold main
      rw [hr]
      simp [hrun, hinit]

/-- C1 on the command line of the test (-i folder -r other): a usage error,
and the world is the one `parseArgs` started in. -/
theorem parseArgs_exactly_one_of_run_init_witness :
    flagParse { run := "", init := "", srcFolder := "", mountPoint := "", runCmd := [] }
        ["-i", "folder", "-r", "other"]
      = some ({ run := "other", init := "folder", srcFolder := "", mountPoint := "",
                runCmd := [] }, []) ∧
    ∃ e, parseArgs (simHost false) ["-i", "folder", "-r", "other"]
        { run := "", init := "", srcFolder := "", mountPoint := "", runCmd := [] }
        (World.start sim0)
      = some (({ run := "other", init := "folder", srcFolder := "", mountPoint := "",
                 runCmd := [] }, e), World.start sim0) ∧ isUsageErr e = true :=
  ⟨by decide,
    (parseArgs_exactly_one_of_run_init (simHost false) ["-i", "folder", "-r", "other"]
      { run := "", init := "", srcFolder := "", mountPoint := "", runCmd := [] }
      (World.start sim0) _ [] (by decide)).1 (Or.inl ⟨by decide, by decide⟩)⟩

/-! ## C2 -/

/-- C2: once `mountCrypt` has its mount point `mp` (the one passed in, or the
temporary directory it created), an exit of the tool with code 12 yields the
empty path and the error "Invalid password"; an exit with any other code `rc`
yields the empty path and "Mount failed: <tool output> (rc=<rc>)"; and the
returned error is nil exactly when the run of the tool returned no error. -/
theorem mountCrypt_exit_codes (h : Host σ) (cryptPath mountPoint encPass : String)
    (w : World σ) (mp : String) (w1 : World σ)
    (hmp : (mountPoint ≠ "" ∧ mp = mountPoint ∧ w1 = w) ∨
      (mountPoint = "" ∧ ioutilTempDir h "" tmpFolderPattern w = ((mp, none), w1))) :
    ((cmdRun h (mountCmd cryptPath mp encPass) w1).1.err = some (GoError.exitError 12) →
      (mountCrypt h cryptPath mountPoint encPass w).1
        = ("", some (GoError.errorString "Invalid password"))) ∧
    (∀ rc : Int, rc ≠ 12 →
      (cmdRun h (mountCmd cryptPath mp encPass) w1).1.err = some (GoError.exitError rc) →
      (mountCrypt h cryptPath mountPoint encPass w).1
        = ("", some (GoError.errorString
            ("Mount failed: " ++ (cmdRun h (mountCmd cryptPath mp encPass) w1).1.out ++
              " (rc=" ++ toString rc ++ ")")))) ∧
    ((mountCrypt h cryptPath mountPoint encPass w).1.2 = none ↔
      (cmdRun h (mountCmd cryptPath mp encPass) w1).1.err = none) := by
  have key : mountCrypt h cryptPath mountPoint encPass w
      = mountCryptAt h cryptPath mp encPass (decide (mountPoint = "")) w1 := by
    unfold mountCrypt
    rcases hmp with ⟨hne, rfl, rfl⟩ | ⟨he, ht⟩
    · simp [hne]
    · simp [he, ht]
  rw [key]
  unfold mountCryptAt
  simp only [mountCmd]
  generalize (cmdRun h _ w1) = r
  obtain ⟨res, w2⟩ := r
  refine ⟨?_, ?_, ?_⟩
  · intro he
    simp only at he
    simp [he]
  · intro rc hrc he
    simp only at he
    simp [he, hrc]
  · cases hr : res.err with
    | none => simp [hr]
    | some e =>
      cases e <;> simp [hr]
      split <;> simp

/-- C2 on the simulated machine: a wrong passphrase for /vault, mounted on the
given directory /mnt, is reported as "Invalid password". -/
theorem mountCrypt_exit_codes_witness :
    (mountCrypt (simHost false) "/vault" "/mnt" "wrong" (World.start sim0)).1
      = ("", some (GoError.errorString "Invalid password")) :=
  (mountCrypt_exit_codes (simHost false) "/vault" "/mnt" "wrong" (World.start sim0)
    "/mnt" (World.start sim0) (Or.inl ⟨by decide, rfl, rfl⟩)).1 (by decide)

/-! ## C3 -/

/-- C3 as stated fails: with the weak passphrase "a" in EMOUNT_PASSWORD,
`initCryptVol` runs the tool with `-init` on "a", whose entropy is below
`minEntropy`; no prompt and no entropy check take place. -/
theorem initCryptVol_env_passphrase_unchecked :
    ¬ ∀ e ∈ (initCryptVol (simHost false) "/new" "" (World.start simWeakEnv)).2.trace,
      e.initStrong (simHost false) := by
  intro hall
  obtain ⟨p, hp, hge⟩ := hall (Event.run (initCmd "/new" "a") { out := "", err := none })
    (by decide) _ _ rfl (by decide)
  have hpa : p = "a" := by
    simp only [initCmd, Option.some.injEq] at hp
    exact hp.symm
  subst hpa
  exact absurd hge (by decide)

/-- C3, amended: when EMOUNT_PASSWORD is empty or unset, every run of the tool
with `-init` that `initCryptVol` makes is fed a passphrase whose entropy is at
least `minEntropy`. -/
theorem initCryptVol_prompted_passphrase_strong (h : Host σ) (path initFrom : String)
    (w : World σ) (henv : h.getenv w.st envPasswordKey = "")
    (hw : ∀ e ∈ w.trace, e.initStrong h) :
    ∀ e ∈ (initCryptVol h path initFrom w).2.trace, e.initStrong h := by
  unfold initCryptVol
  rw [if_pos henv]
  split
  rename_i encPass err w1 hp
  have hread : TraceExt (fun e => e.initStrong h) w.trace w1.trace := by
    have := promptNewPasswordLoop_ext h "Enter encryption passphrase: " minEntropy
      maxNewPasswordTries w
    unfold promptNewPassword at hp
    rw [hp] at this
    refine this.mono ?_
    rintro e ⟨r, rfl⟩
    exact Event.initStrong_of_not_initRun h _ rfl
  split
  · exact hread.all hw
  · unfold promptNewPassword at hp
    obtain ⟨-, hstrong, -⟩ := promptNewPasswordLoop_ok h _ _ _ _ _ _ hp
    refine TraceExt.all ?_ (hread.all hw)
    refine (initCryptVolWith_ext h path initFrom encPass w1).mono ?_
    rintro e (he | ⟨res, rfl⟩)
    · exact Event.initStrong_of_not_initRun h e he
    · intro cmd res2 hrun _
      simp only [Event.run.injEq] at hrun
      exact ⟨encPass, by rw [← hrun.1]; rfl, hstrong⟩

/-- C3, amended, on the simulated machine: the user types "horse-table" twice,
the tool is run with `-init` on it, and that passphrase is strong enough. -/
theorem initCryptVol_prompted_passphrase_strong_witness :
    Event.run (initCmd "/new" "horse-table") { out := "", err := none }
      ∈ (initCryptVol (simHost false) "/new" "" (World.start simTyped)).2.trace ∧
    ∀ e ∈ (initCryptVol (simHost false) "/new" "" (World.start simTyped)).2.trace,
      e.initStrong (simHost false) :=
  ⟨by decide,
    initCryptVol_prompted_passphrase_strong (simHost false) "/new" "" (World.start simTyped)
      (by decide) (by simp [World.start])⟩

/-! ## C4 -/

/-- C4: when `decryptAndRun` has a non-empty passphrase and the mount
succeeds on `mp`, the next call after the mount runs the user command with
argv `opt.runCmd` and with the environment `os.Environ()` followed by the one
entry "EMOUNT_FOLDER=<mp>"; `mp` is the mount point given in the options when
there is one, and otherwise the directory `TempDir` created. The options
carry a command (`parseArgs` rejects a run without one). -/
theorem decryptAndRun_runs_command (h : Host σ) (opt : options) (w w1 w2 : World σ)
    (encPass mp : String) (hcmd : opt.runCmd ≠ [])
    (hpass : (if h.getenv w.st envPasswordKey = "" then
        terminalGetSecret h "Enter encryption passphrase: " w
      else ((h.getenv w.st envPasswordKey, none), w)) = ((encPass, none), w1))
    (hne : encPass ≠ "")
    (hmount : mountCrypt h opt.run opt.mountPoint encPass w1 = ((mp, none), w2)) :
    (∃ w3 res post, decryptAndRun h opt w = some (none, w3) ∧
      w3.trace = w2.trace ++
        Event.run { path := opt.runCmd.headD "", args := opt.runCmd,
                    env := some (h.environ w2.st ++ ["EMOUNT_FOLDER=" ++ mp]),
                    stdin := none, capture := false } res :: post) ∧
    (opt.mountPoint ≠ "" → mp = opt.mountPoint) ∧
    (opt.mountPoint = "" → (h.tempDir w1.st "" "emount_").1 = (mp, none)) := by
  obtain ⟨w3, flags, d, hrun, htrace, -⟩ :=
    decryptAndRunWith_ok h opt encPass w1 w2 mp hcmd hne hmount
  refine ⟨⟨w3, _, _, ?_, htrace⟩, ?_⟩
  · rw [decryptAndRun_eq_with h opt w w1 encPass hpass, hrun]
  · exact mountCrypt_ok_path h opt.run opt.mountPoint encPass w1 mp (by rw [hmount])

/-- C4 on the simulated machine: /bin/sh is run with its three words and with
the environment of the caller plus EMOUNT_FOLDER=/mnt. -/
theorem decryptAndRun_runs_command_witness :
    ∃ w3 res post, decryptAndRun (simHost false) optShell (World.start simEnvPass)
        = some (none, w3) ∧
      w3.trace = (mountCrypt (simHost false) "/vault" "/mnt" "correct horse"
          (World.start simEnvPass)).2.trace ++
        Event.run { path := "/bin/sh", args := ["/bin/sh", "-c", "true"],
                    env := some (["EMOUNT_PASSWORD=correct horse"] ++ ["EMOUNT_FOLDER=/mnt"]),
                    stdin := none, capture := false } res :: post :=
  (decryptAndRun_runs_command (simHost false) optShell (World.start simEnvPass)
    (World.start simEnvPass)
    (mountCrypt (simHost false) "/vault" "/mnt" "correct horse" (World.start simEnvPass)).2
    "correct horse" "/mnt" (by decide) rfl (by decide) rfl).1

/-! ## C5 -/

/-- C5: when `decryptAndRun` has a non-empty passphrase and the mount
succeeds on `mp`, it returns nil whatever the result of the user command, the
whole run makes exactly one unmount syscall (the first step of `unmountVol`),
and that call is on `mp` and comes right after the run of the user command.
The options carry a command (`parseArgs` rejects a run without one). -/
theorem decryptAndRun_unmounts_once (h : Host σ) (opt : options) (w w1 w2 : World σ)
    (encPass mp : String) (hcmd : opt.runCmd ≠ [])
    (hpass : (if h.getenv w.st envPasswordKey = "" then
        terminalGetSecret h "Enter encryption passphrase: " w
      else ((h.getenv w.st envPasswordKey, none), w)) = ((encPass, none), w1))
    (hne : encPass ≠ "")
    (hmount : mountCrypt h opt.run opt.mountPoint encPass w1 = ((mp, none), w2)) :
    ∃ w3, decryptAndRun h opt w = some (none, w3) ∧
      w3.trace.countP Event.isUnmount = w.trace.countP Event.isUnmount + 1 ∧
      ∃ env res flags post, w3.trace = w2.trace ++
        Event.run (userCmd opt.runCmd env) res :: Event.unmount mp flags :: post := by
  obtain ⟨w3, flags, d, hrun, htrace, hquiet⟩ :=
    decryptAndRunWith_ok h opt encPass w1 w2 mp hcmd hne hmount
  refine ⟨w3, ?_, ?_, _, _, flags, d, htrace⟩
  · rw [decryptAndRun_eq_with h opt w w1 encPass hpass, hrun]
  · have h01 : w1.trace.countP Event.isUnmount = w.trace.countP Event.isUnmount :=
      TraceExt.countP_eq ((passphrase_ext h w w1 _ hpass).mono (by rintro e ⟨r, rfl⟩; rfl))
    have h12 : w2.trace.countP Event.isUnmount = w1.trace.countP Event.isUnmount := by
      have hm := mountCrypt_ext h opt.run opt.mountPoint encPass w1
      rw [hmount] at hm
      refine TraceExt.countP_eq (hm.mono ?_)
      rintro e (⟨r, rfl⟩ | ⟨p, res, rfl⟩ | ⟨p, rfl⟩) <;> rfl
    have hd : d.countP Event.isUnmount = 0 := by
      rw [List.countP_eq_zero]
      intro e he
      simp [hquiet e he]
    rw [htrace, List.countP_append, List.countP_cons, List.countP_cons, hd, h12, h01]
    simp [Event.isUnmount]

/-- C5 on the simulated machine: the user command /bin/false fails, the
temporary mount point is unmounted all the same, and nil is returned. -/
theorem decryptAndRun_unmounts_once_witness :
    ∃ w3, decryptAndRun (simHost false) optFalse (World.start simEnvPass) = some (none, w3) ∧
      w3.trace.countP Event.isUnmount
        = (World.start simEnvPass).trace.countP Event.isUnmount + 1 ∧
      ∃ env res flags post, w3.trace =
        (mountCrypt (simHost false) "/vault" "" "correct horse"
          (World.start simEnvPass)).2.trace ++
        Event.run (userCmd ["/bin/false"] env) res ::
          Event.unmount "/tmp/emount_1" flags :: post :=
  decryptAndRun_unmounts_once (simHost false) optFalse (World.start simEnvPass)
    (World.start simEnvPass)
    (mountCrypt (simHost false) "/vault" "" "correct horse" (World.start simEnvPass)).2
    "correct horse" "/tmp/emount_1" (by decide) rfl (by decide) rfl

/-! ## C6 -/

/-- After a successful mount on `mp`, an error of `copy.Copy` makes `initialCopy` return that error at once;
the only calls after the mount are the copy and the deferred `RemoveAll` of the
mount point, so the volume is never unmounted. -/
theorem initialCopy_copy_error_trace (h : Host σ) (cryptPath password initFrom : String)
    (w w1 : World σ) (mp : String) (e : GoError)
    (hmount : mountCrypt h cryptPath "" password w = ((mp, none), w1))
    (hcopy : (h.copy w1.st initFrom mp).1 = some e) :
    (initialCopy h cryptPath password initFrom w).1 = some e ∧
    (initialCopy h cryptPath password initFrom w).2.trace
      = w1.trace ++ [Event.copy initFrom mp, Event.removeAll mp] := by
  unfold initialCopy
  rw [hmount]
  simp [copyCopy, osRemoveAll, hcopy]

/-- C6 on the simulated machine: the copy meets an unreadable file; the
calls made are TempDir, the mount, the copy and RemoveAll, and none of them is
an unmount. -/
theorem initialCopy_copy_error_skips_unmount :
    (initialCopy (simHost false) "/vault" "correct horse" "/src"
        (World.start simCopyFails)).1 = some (GoError.sysError "permission denied") ∧
    (initialCopy (simHost false) "/vault" "correct horse" "/src"
        (World.start simCopyFails)).2.trace
      = [Event.tempDir "" "emount_" ("/tmp/emount_1", none),
         Event.run (mountCmd "/vault" "/tmp/emount_1" "correct horse") { out := "", err := none },
         Event.copy "/src" "/tmp/emount_1",
         Event.removeAll "/tmp/emount_1"] ∧
    (initialCopy (simHost false) "/vault" "correct horse" "/src"
        (World.start simCopyFails)).2.trace.countP Event.isUnmount = 0 := by
  decide

/-! ## C7 -/

/-- C7: `unmountVol` on Linux first makes the unmount syscall with
`MNT_DETACH`. If it succeeds nothing else is called and nil is returned. If it
fails with `e1`, fusermount is looked up on PATH; when it is not found `e1` is
returned unchanged and nothing is run; when it is found as `fm`, the helper is
run as `fm -u path`, and the result is nil if the helper succeeds and otherwise
an error whose text holds both `e1` and the error of the helper. The result
is nil exactly when the syscall succeeded or the helper was run and succeeded. -/
theorem unmountVolLinux_spec (h : Host σ) (path : String) (w : World σ)
    (e1 : error) (w1 : World σ) (fm : String) (lerr : error) (w2 : World σ)
    (e2 : error) (w3 : World σ)
    (hsys : syscallUnmount h path MNT_DETACH w = (e1, w1))
    (hlook : execLookPath h "fusermount" w1 = ((fm, lerr), w2))
    (hrun : runCommandAt h fm [fm, "-u", path] (h.environ w1.st) w2 = (e2, w3)) :
    w1.trace = w.trace ++ [Event.unmount path MNT_DETACH] ∧
    w2.trace = w1.trace ++ [Event.lookPath "fusermount"] ∧
    (∃ res, w3.trace = w2.trace ++ [Event.run (userCmd [fm, "-u", path] (h.environ w1.st)) res]) ∧
    (e1 = none → unmountVolLinux h path w = (none, w1)) ∧
    (∀ x, e1 = some x → lerr ≠ none → unmountVolLinux h path w = (some x, w2)) ∧
    (∀ x, e1 = some x → lerr = none → e2 = none → unmountVolLinux h path w = (none, w3)) ∧
    (∀ x y, e1 = some x → lerr = none → e2 = some y →
      unmountVolLinux h path w
        = (some (GoError.errorString
            ("unmount failed [1]:" ++ x.Error ++ " [2]:" ++ y.Error)), w3)) ∧
    ((unmountVolLinux h path w).1 = none ↔ (e1 = none ∨ (lerr = none ∧ e2 = none))) := by
  have ht1 : w1.trace = w.trace ++ [Event.unmount path MNT_DETACH] := by
    rw [← congrArg (fun r => r.2.trace) hsys]
    rfl
  have ht2 : w2.trace = w1.trace ++ [Event.lookPath "fusermount"] := by
    rw [← congrArg (fun r => r.2.trace) hlook]
    rfl
  have ht3 : ∃ res, w3.trace
      = w2.trace ++ [Event.run (userCmd [fm, "-u", path] (h.environ w1.st)) res] := by
    have := runCommandAt_trace h fm [fm, "-u", path] (h.environ w1.st) w2
    rw [hrun] at this
    exact ⟨_, this⟩
  refine ⟨ht1, ht2, ht3, ?_, ?_, ?_, ?_, ?_⟩
  · intro he
    subst he
    unfold unmountVolLinux
    rw [hsys]
  · intro x he hl
    subst he
    unfold unmountVolLinux
    rw [hsys]
    simp only
    rw [hlook]
    cases lerr with
    | none => exact absurd rfl hl
    | some _ => rfl
  · intro x he hl h2
    subst he hl h2
    unfold unmountVolLinux
    rw [hsys]
    simp only
    rw [hlook]
    simp only
    rw [hrun]
  · intro x y he hl h2
    subst he hl h2
    unfold unmountVolLinux
    rw [hsys]
    simp only
    rw [hlook]
    simp only
    rw [hrun]
  · unfold unmountVolLinux
    rw [hsys]
    cases e1 with
    | none => simp
    | some x =>
      simp only
      rw [hlook]
      cases lerr with
      | some _ => simp
      | none =>
        simp only
        rw [hrun]
        cases e2 <;> simp

/-- C7 on the simulated machine: the syscall is refused, fusermount is found
on PATH and run as "/bin/fusermount -u /mnt", it succeeds, and the result is
nil. -/
theorem unmountVolLinux_spec_witness :
    (unmountVolLinux (simHost false) "/mnt" (World.start simDenied)).1 = none ∧
    (unmountVolLinux (simHost false) "/mnt" (World.start simDenied)).2.trace
      = [Event.unmount "/mnt" MNT_DETACH, Event.lookPath "fusermount",
         Event.run (userCmd ["/bin/fusermount", "-u", "/mnt"] ["HOME=/root"])
           { out := "", err := none }] :=
  have hs := unmountVolLinux_spec (simHost false) "/mnt" (World.start simDenied)
    (some (GoError.sysError "operation not permitted"))
    (syscallUnmount (simHost false) "/mnt" MNT_DETACH (World.start simDenied)).2
    "/bin/fusermount" none
    (execLookPath (simHost false) "fusermount"
      (syscallUnmount (simHost false) "/mnt" MNT_DETACH (World.start simDenied)).2).2
    none
    (runCommandAt (simHost false) "/bin/fusermount" ["/bin/fusermount", "-u", "/mnt"]
      ["HOME=/root"]
      (execLookPath (simHost false) "fusermount"
        (syscallUnmount (simHost false) "/mnt" MNT_DETACH (World.start simDenied)).2).2).2
    rfl rfl rfl
  ⟨by rw [hs.2.2.2.2.2.1 _ rfl rfl rfl], by rw [hs.2.2.2.2.2.1 _ rfl rfl rfl]; decide⟩

/-! ## C8 -/

/-- C8: a password `p` that `promptNewPassword` returns with a nil error is
non-empty, its entropy score is at least `minEntropy`, and the last two reads
of the terminal, the entry and its confirmation, both succeeded and both are
`p` once trimmed as `terminalGetSecret` trims them. -/
theorem promptNewPassword_ok (h : Host σ) (prompt : String) (minEntropy : ℚ)
    (w : World σ) (p : String) (w2 : World σ)
    (hr : promptNewPassword h prompt minEntropy w = ((p, none), w2)) :
    p ≠ "" ∧ minEntropy ≤ h.passwordEntropy p ∧
    ∃ t raw1 raw2, w2.trace = t ++ [Event.readPassword (raw1, none),
        Event.readPassword (raw2, none)] ∧ trimSpace raw1 = p ∧ trimSpace raw2 = p :=
  promptNewPasswordLoop_ok h prompt minEntropy maxNewPasswordTries w p w2 hr

/-- C8 on the simulated machine: the user types "horse-table" twice. -/
theorem promptNewPassword_ok_witness :
    "horse-table" ≠ "" ∧ Emount.minEntropy ≤ (simHost false).passwordEntropy "horse-table" ∧
    ∃ t raw1 raw2,
      (promptNewPassword (simHost false) "Enter encryption passphrase: " Emount.minEntropy
        (World.start simTyped)).2.trace
        = t ++ [Event.readPassword (raw1, none), Event.readPassword (raw2, none)] ∧
      trimSpace raw1 = "horse-table" ∧ trimSpace raw2 = "horse-table" :=
  promptNewPassword_ok (simHost false) "Enter encryption passphrase: " Emount.minEntropy
    (World.start simTyped) "horse-table" _ rfl

/-! ## C9 -/

/-- C9 as stated fails: /etc/passwd/x does not exist (its parent is a
regular file), `MkdirAll` cannot create it, and `parseArgs` returns the error
of the `MkdirAll` branch instead of succeeding. -/
theorem parseArgs_init_missing_folder_may_fail :
    ((simHost false).stat sim0 "/etc/passwd/x").2 ≠ none ∧
    (parseArgs (simHost false) ["--init", "/etc/passwd/x"]
        { run := "", init := "", srcFolder := "", mountPoint := "", runCmd := [] }
        (World.start sim0)).map (fun r => r.1.2)
      = some (some (GoError.errorString
          "creating init path /etc/passwd/x: not a directory")) := by
  decide

/-- C9, amended: on a command line that sets only the init flag, to FOLDER,
`parseArgs` fails when `os.Stat` finds FOLDER and it is not a directory, and
when it is a directory in which `Readdir(1)` does not report the end at once
(a non-empty directory); it succeeds, leaving `opt.init = FOLDER`, when FOLDER
is a directory that opens and has no entry; and when `os.Stat` fails (FOLDER
does not exist) it calls `os.MkdirAll(FOLDER, 0700)` and succeeds if that call
does, and otherwise returns "creating init path FOLDER: <error>". -/
theorem parseArgs_init_folder (h : Host σ) (args : List String) (opt0 : options)
    (w : World σ) (fl : options) (rest : List String)
    (hparse : flagParse { opt0 with run := "", init := "", srcFolder := "", mountPoint := "" }
      args = some (fl, rest))
    (hinit : fl.init ≠ "") (hrun : fl.run = "") (hsrc : fl.srcFolder = "")
    (hmp : fl.mountPoint = "") :
    ((h.stat w.st fl.init).2 = none → (h.stat w.st fl.init).1.IsDir = false →
      ∃ e w1, parseArgs h args opt0 w = some ((fl, some e), w1)) ∧
    ((h.stat w.st fl.init).2 = none → (h.stat w.st fl.init).1.IsDir = true →
      ((h.osOpen w.st fl.init).2 = none →
        h.readdir w.st (h.osOpen w.st fl.init).1 ≠ some GoError.eof) →
      ∃ e w1, parseArgs h args opt0 w = some ((fl, some e), w1)) ∧
    ((h.stat w.st fl.init).2 = none → (h.stat w.st fl.init).1.IsDir = true →
      (h.osOpen w.st fl.init).2 = none →
      (h.fileStat w.st (h.osOpen w.st fl.init).1).2 = none →
      (h.fileStat w.st (h.osOpen w.st fl.init).1).1.IsDir = true →
      h.readdir w.st (h.osOpen w.st fl.init).1 = some GoError.eof →
      ∃ w1, parseArgs h args opt0 w = some ((fl, none), w1)) ∧
    ((h.stat w.st fl.init).2 ≠ none → (h.mkdirAll w.st fl.init 0o700).1 = none →
      ∃ w1, parseArgs h args opt0 w = some ((fl, none), w1) ∧
        w1.trace = w.trace ++ [Event.stat fl.init, Event.mkdirAll fl.init 0o700]) ∧
    ((h.stat w.st fl.init).2 ≠ none → ∀ e, (h.mkdirAll w.st fl.init 0o700).1 = some e →
      ∃ w1, parseArgs h args opt0 w = some ((fl, some (GoError.errorString
          ("creating init path " ++ fl.init ++ ": " ++ e.Error))), w1) ∧
        w1.trace = w.trace ++ [Event.stat fl.init, Event.mkdirAll fl.init 0o700]) := by
  have key := parseArgs_init_eq h args opt0 w fl rest hparse hinit hrun hsrc hmp
  have hiff := checkEmptyDir_none_iff h fl.init (w.log (Event.stat fl.init))
  refine ⟨?_, ?_, ?_, ?_, ?_⟩
  · intro hs hd
    rw [key, if_neg (by simp [hs]), if_neg (by simp [hd])]
    exact ⟨_, _, rfl⟩
  · intro hs hd hne
    rw [key, if_neg (by simp [hs]), if_pos hd]
    cases hc : (checkEmptyDir h fl.init (w.log (Event.stat fl.init))).1 with
    | some e => exact ⟨e, _, rfl⟩
    | none =>
      have := hiff.mp hc
      exact absurd this.2.2.2 (hne this.1)
  · intro hs hd h1 h2 h3 h4
    rw [key, if_neg (by simp [hs]), if_pos hd, hiff.mpr ⟨h1, h2, h3, h4⟩]
    exact ⟨_, rfl⟩
  · intro hs hm
    rw [key, if_pos hs]
    refine ⟨(osMkdirAll h fl.init 0o700 (w.log (Event.stat fl.init))).2, ?_, ?_⟩
    · simp only [osMkdirAll]
      rw [show (h.mkdirAll (w.log (Event.stat fl.init)).st fl.init 0o700).1 = none from hm]
      rfl
    · simp [osMkdirAll, World.log]
  · intro hs e hm
    rw [key, if_pos hs]
    refine ⟨(osMkdirAll h fl.init 0o700 (w.log (Event.stat fl.init))).2, ?_, ?_⟩
    · simp only [osMkdirAll]
      rw [show (h.mkdirAll (w.log (Event.stat fl.init)).st fl.init 0o700).1 = some e from hm]
      rfl
    · simp [osMkdirAll, World.log]

/-- C9, amended, on the simulated machine: /mnt is an existing empty
directory, and the command line --init /mnt is accepted with `opt.init` set
to /mnt. -/
theorem parseArgs_init_folder_witness :
    ∃ w1, parseArgs (simHost false) ["--init", "/mnt"]
        { run := "", init := "", srcFolder := "", mountPoint := "", runCmd := [] }
        (World.start sim0)
      = some (({ run := "", init := "/mnt", srcFolder := "", mountPoint := "",
                 runCmd := [] }, none), w1) :=
  (parseArgs_init_folder (simHost false) ["--init", "/mnt"]
    { run := "", init := "", srcFolder := "", mountPoint := "", runCmd := [] }
    (World.start sim0) _ [] (by decide) (by decide) (by decide) (by decide)
    (by decide)).2.2.1 (by decide) (by decide) (by decide) (by decide) (by decide) (by decide)

/-! ## C10 -/

/-- C10: on a command line that sets the run flag and a non-empty mount
point MP, `parseArgs` succeeds only if MP opens, is a directory and has no
entry (`checkEmptyDir` accepts it) and MP differs from the run folder, and then
`opt.mountPoint` is MP; with the same value for both, `parseArgs` returns an
error. -/
theorem parseArgs_mount_point (h : Host σ) (args : List String) (opt0 : options)
    (w : World σ) (fl : options) (rest : List String)
    (hparse : flagParse { opt0 with run := "", init := "", srcFolder := "", mountPoint := "" }
      args = some (fl, rest))
    (hrun : fl.run ≠ "") (hmp : fl.mountPoint ≠ "") :
    (∀ opt w1, parseArgs h args opt0 w = some ((opt, none), w1) →
      ((h.osOpen w.st fl.mountPoint).2 = none ∧
        (h.fileStat w.st (h.osOpen w.st fl.mountPoint).1).2 = none ∧
        (h.fileStat w.st (h.osOpen w.st fl.mountPoint).1).1.IsDir = true ∧
        h.readdir w.st (h.osOpen w.st fl.mountPoint).1 = some GoError.eof) ∧
      fl.mountPoint ≠ fl.run ∧ opt.mountPoint = fl.mountPoint) ∧
    (fl.mountPoint = fl.run →
      ∃ opt e w1, parseArgs h args opt0 w = some ((opt, some e), w1)) := by
  have hok : ∀ opt w1, parseArgs h args opt0 w = some ((opt, none), w1) →
      ((h.osOpen w.st fl.mountPoint).2 = none ∧
        (h.fileStat w.st (h.osOpen w.st fl.mountPoint).1).2 = none ∧
        (h.fileStat w.st (h.osOpen w.st fl.mountPoint).1).1.IsDir = true ∧
        h.readdir w.st (h.osOpen w.st fl.mountPoint).1 = some GoError.eof) ∧
      fl.mountPoint ≠ fl.run ∧ opt.mountPoint = fl.mountPoint := by
    intro opt w1 hr
    have hk := parseArgs_keeps_flags h args opt0 w fl rest hparse _ hr
    have hr2 := hr
    unfold parseArgs at hr2
    rw [hparse] at hr2
    simp only at hr2
    by_cases hinit : fl.init = ""
    · rw [if_neg (by simp [hrun, hinit]), if_neg (by simp [hinit])] at hr2
      simp only [Option.some.injEq] at hr2
      have hm := parseArgsRun_ok_mount h rest fl w hrun hmp (by rw [hr2])
      have hiff := checkEmptyDir_none_iff h fl.mountPoint (checkFolder h fl.run w).2
      rw [checkFolder_st] at hiff
      exact ⟨hiff.mp hm.1, hm.2, hk.2.2.2⟩
    · rw [if_pos (Or.inl ⟨hrun, hinit⟩)] at hr2
      simp [newUsageErr] at hr2
  refine ⟨hok, ?_⟩
  intro hsame
  obtain ⟨⟨⟨opt, err⟩, w1⟩, hr⟩ := parseArgs_total h args opt0 w fl rest hparse
  cases err with
  | some e => exact ⟨opt, e, w1, hr⟩
  | none => exact absurd hsame (hok opt w1 hr).2.1

/-- C10 on the simulated machine: -r /vault -m /mnt sh -c x is accepted, so
/mnt passed the checks and is the mount point in the options. -/
theorem parseArgs_mount_point_witness :
    (((simHost false).osOpen sim0 "/mnt").2 = none ∧
      ((simHost false).fileStat sim0 ((simHost false).osOpen sim0 "/mnt").1).2 = none ∧
      ((simHost false).fileStat sim0 ((simHost false).osOpen sim0 "/mnt").1).1.IsDir = true ∧
      (simHost false).readdir sim0 ((simHost false).osOpen sim0 "/mnt").1
        = some GoError.eof) ∧
    "/mnt" ≠ "/vault" ∧
    (parseArgsRun (simHost false) ["sh", "-c", "x"]
      { run := "/vault", init := "", srcFolder := "", mountPoint := "/mnt", runCmd := [] }
      (World.start sim0)).1.1.mountPoint = "/mnt" :=
  (parseArgs_mount_point (simHost false) ["-r", "/vault", "-m", "/mnt", "sh", "-c", "x"]
    { run := "", init := "", srcFolder := "", mountPoint := "", runCmd := [] }
    (World.start sim0)
    { run := "/vault", init := "", srcFolder := "", mountPoint := "/mnt", runCmd := [] }
    ["sh", "-c", "x"] (by decide) (by decide) (by decide)).1
    (parseArgsRun (simHost false) ["sh", "-c", "x"]
      { run := "/vault", init := "", srcFolder := "", mountPoint := "/mnt", runCmd := [] }
      (World.start sim0)).1.1
    (parseArgsRun (simHost false) ["sh", "-c", "x"]
      { run := "/vault", init := "", srcFolder := "", mountPoint := "/mnt", runCmd := [] }
      (World.start sim0)).2
    rfl

/-! ## C11 -/

/-- With the run flag alone set, `parseArgs` is its run block. -/
theorem parseArgs_run_eq (h : Host σ) (args : List String) (opt0 : options) (w : World σ)
    (fl : options) (rest : List String)
    (hparse : flagParse { opt0 with run := "", init := "", srcFolder := "", mountPoint := "" }
      args = some (fl, rest))
    (hrun : fl.run ≠ "") (hinit : fl.init = "") :
    parseArgs h args opt0 w = some (parseArgsRun h rest fl w) := by
  unfold parseArgs
  rw [hparse]
  simp only
  rw [if_neg (by simp [hrun, hinit]), if_neg (by simp [hinit])]

/-- The run block of `parseArgs` once the folder and mount-point checks have
passed: what is left is the check of the command, in a world whose host state
is the one `parseArgs` started in. -/
theorem parseArgsRun_command (h : Host σ) (rest : List String) (opt : options) (w : World σ)
    (hrun : opt.run ≠ "") (hsrc : opt.srcFolder = "")
    (hdir : (checkFolder h opt.run w).1 = dirCheckResponse.isDir)
    (hmp : opt.mountPoint ≠ "" →
      (checkEmptyDir h opt.mountPoint (checkFolder h opt.run w).2).1 = none)
    (hne : opt.mountPoint ≠ opt.run) :
    ∃ w2 : World σ, w2.st = w.st ∧
      parseArgsRun h rest opt w =
        match rest with
        | [] => (({ opt with runCmd := [] }, newUsageErr "Command required for -run"), w2)
        | x :: words =>
          if (h.stat w.st x).2 ≠ none then
            if (h.lookPath w.st x).2 = none ∧ (h.lookPath w.st x).1 ≠ x then
              (({ opt with runCmd := (h.lookPath w.st x).1 :: words }, none),
                (w2.log (Event.stat x)).log (Event.lookPath x))
            else
              (({ opt with runCmd := x :: words },
                some (GoError.errorString
                  ("run program " ++ x ++ " not found: " ++ fmtV (h.lookPath w.st x).2))),
                (w2.log (Event.stat x)).log (Event.lookPath x))
          else if (h.stat w.st x).1.IsRegular = true ∧ (h.stat w.st x).1.mode &&& 0o111 ≠ 0 then
            (({ opt with runCmd := x :: words }, none), w2.log (Event.stat x))
          else
            (({ opt with runCmd := x :: words },
              some (GoError.errorString
                ("run program " ++ x ++ " permission error or not executable: " ++
                  fmtV none))),
              w2.log (Event.stat x)) := by
  refine ⟨(if opt.mountPoint ≠ "" then checkEmptyDir h opt.mountPoint (checkFolder h opt.run w).2
      else (none, (checkFolder h opt.run w).2)).2, ?_, ?_⟩
  · by_cases hm : opt.mountPoint = ""
    · simp [hm, checkFolder_st]
    · simp [hm, checkFolder_st, checkEmptyDir_st]
  · have hst : (if opt.mountPoint ≠ "" then
        checkEmptyDir h opt.mountPoint (checkFolder h opt.run w).2
        else (none, (checkFolder h opt.run w).2)).2.st = w.st := by
      by_cases hm : opt.mountPoint = ""
      · simp [hm, checkFolder_st]
      · simp [hm, checkFolder_st, checkEmptyDir_st]
    have herr : (if opt.mountPoint ≠ "" then
        checkEmptyDir h opt.mountPoint (checkFolder h opt.run w).2
        else (none, (checkFolder h opt.run w).2)).1 = none := by
      by_cases hm : opt.mountPoint = ""
      · simp [hm]
      · simp [hm, hmp hm]
    unfold parseArgsRun
    rw [if_pos hrun]
    simp only [hdir, ne_eq, not_true_eq_false, if_false, hsrc, herr, hne]
    cases rest with
    | nil => rfl
    | cons x words =>
      simp only [osStat, execLookPath, World.log, hst]
      cases hs : (h.stat w.st x).2 with
      | some e =>
        simp only [ne_eq, reduceCtorEq, not_false_eq_true, if_true]
      | none =>
        simp only [ne_eq, not_true_eq_false, if_false]
        by_cases hx : (h.stat w.st x).1.IsRegular = true ∧ (h.stat w.st x).1.mode &&& 0o111 ≠ 0
        · rw [if_pos hx, if_neg (by simp [hx.1, hx.2])]
        · have hor : (!(h.stat w.st x).1.IsRegular) = true ∨
              (h.stat w.st x).1.mode &&& 0o111 = 0 := by
            by_cases hreg : (h.stat w.st x).1.IsRegular = true
            · right
              by_contra hz
              exact hx ⟨hreg, hz⟩
            · left
              simpa using hreg
          rw [if_neg hx, if_pos hor]

/-- C11: on a command line with the run flag that passes the folder and
mount-point checks, `parseArgs` returns a usage error when no command word is
left; when `os.Stat` finds the first word it succeeds exactly when the file is
regular with an execute bit, and `opt.runCmd` is the words as given; when
`os.Stat` does not find it and `exec.LookPath` finds it (nil error, and a path
other than the word itself, which `os.Stat` has just failed on), it succeeds
with the found path in place of the first word and the other words unchanged;
otherwise it fails. -/
theorem parseArgs_command (h : Host σ) (args : List String) (opt0 : options) (w : World σ)
    (fl : options) (rest : List String)
    (hparse : flagParse { opt0 with run := "", init := "", srcFolder := "", mountPoint := "" }
      args = some (fl, rest))
    (hrun : fl.run ≠ "") (hinit : fl.init = "") (hsrc : fl.srcFolder = "")
    (hdir : (checkFolder h fl.run w).1 = dirCheckResponse.isDir)
    (hmp : fl.mountPoint ≠ "" →
      (checkEmptyDir h fl.mountPoint (checkFolder h fl.run w).2).1 = none)
    (hne : fl.mountPoint ≠ fl.run) :
    (rest = [] → ∃ e w1, parseArgs h args opt0 w = some (({ fl with runCmd := [] }, e), w1) ∧
      isUsageErr e = true) ∧
    (∀ x words, rest = x :: words → (h.stat w.st x).2 = none →
      ∃ err w1, parseArgs h args opt0 w
          = some (({ fl with runCmd := x :: words }, err), w1) ∧
        (err = none ↔
          ((h.stat w.st x).1.IsRegular = true ∧ (h.stat w.st x).1.mode &&& 0o111 ≠ 0))) ∧
    (∀ x words, rest = x :: words → (h.stat w.st x).2 ≠ none →
      (h.lookPath w.st x).2 = none → (h.lookPath w.st x).1 ≠ x →
      ∃ w1, parseArgs h args opt0 w
        = some (({ fl with runCmd := (h.lookPath w.st x).1 :: words }, none), w1)) ∧
    (∀ x words, rest = x :: words → (h.stat w.st x).2 ≠ none →
      ((h.lookPath w.st x).2 ≠ none ∨ (h.lookPath w.st x).1 = x) →
      ∃ e w1, parseArgs h args opt0 w
        = some (({ fl with runCmd := x :: words }, some e), w1)) := by
  obtain ⟨w2, -, hkey⟩ := parseArgsRun_command h rest fl w hrun hsrc hdir hmp hne
  rw [parseArgs_run_eq h args opt0 w fl rest hparse hrun hinit, hkey]
  refine ⟨?_, ?_, ?_, ?_⟩
  · intro hr
    subst hr
    exact ⟨_, _, rfl, rfl⟩
  · intro x words hr hs
    subst hr
    simp only [hs, ne_eq, not_true_eq_false, if_false]
    by_cases hx : (h.stat w.st x).1.IsRegular = true ∧ (h.stat w.st x).1.mode &&& 0o111 ≠ 0
    · rw [if_pos hx]
      exact ⟨none, _, rfl, by simp [hx.1, hx.2]⟩
    · rw [if_neg hx]
      exact ⟨_, _, rfl, by simp [hx]⟩
  · intro x words hr hs hl hx
    subst hr
    simp only
    rw [if_pos hs, if_pos ⟨hl, hx⟩]
    exact ⟨_, rfl⟩
  · intro x words hr hs hl
    subst hr
    simp only
    rw [if_pos hs, if_neg (by
      rintro ⟨h1, h2⟩
      rcases hl with hl | hl
      · exact hl h1
      · exact h2 hl)]
    exact ⟨_, _, rfl⟩

/-- C11 on the simulated machine: in -r /vault sh -c x the word sh is no
file, PATH lookup finds /bin/sh, and the options carry /bin/sh -c x. -/
theorem parseArgs_command_witness :
    ∃ w1, parseArgs (simHost false) ["-r", "/vault", "sh", "-c", "x"]
        { run := "", init := "", srcFolder := "", mountPoint := "", runCmd := [] }
        (World.start sim0)
      = some (({ run := "/vault", init := "", srcFolder := "", mountPoint := "",
                 runCmd := ["/bin/sh", "-c", "x"] }, none), w1) :=
  (parseArgs_command (simHost false) ["-r", "/vault", "sh", "-c", "x"]
    { run := "", init := "", srcFolder := "", mountPoint := "", runCmd := [] }
    (World.start sim0)
    { run := "/vault", init := "", srcFolder := "", mountPoint := "", runCmd := [] }
    ["sh", "-c", "x"] (by decide) (by decide) (by decide) (by decide) (by decide)
    (by decide) (by decide)).2.2.1 "sh" ["-c", "x"] rfl (by decide) (by decide) (by decide)

/-! ## C12 -/

/-- C12: `checkEmptyDir` returns nil exactly when the path opens, the open
handle is a directory and `Readdir(1)` reports the end of the directory (no
entry); it returns an error for a path that cannot be opened (one that does not
exist), for a handle that is not a directory (a regular file), and for a
directory in which `Readdir(1)` finds an entry. -/
theorem checkEmptyDir_spec (h : Host σ) (path : String) (w : World σ) :
    ((checkEmptyDir h path w).1 = none ↔
      ((h.osOpen w.st path).2 = none ∧
        (h.fileStat w.st (h.osOpen w.st path).1).2 = none ∧
        (h.fileStat w.st (h.osOpen w.st path).1).1.IsDir = true ∧
        h.readdir w.st (h.osOpen w.st path).1 = some GoError.eof)) ∧
    (∀ e, (h.osOpen w.st path).2 = some e → (checkEmptyDir h path w).1 = some e) ∧
    ((h.osOpen w.st path).2 = none →
      (h.fileStat w.st (h.osOpen w.st path).1).2 = none →
      (h.fileStat w.st (h.osOpen w.st path).1).1.IsDir = false →
      (checkEmptyDir h path w).1
        = some (GoError.errorString (path ++ " is not a directory"))) ∧
    ((h.osOpen w.st path).2 = none →
      (h.fileStat w.st (h.osOpen w.st path).1).2 = none →
      (h.fileStat w.st (h.osOpen w.st path).1).1.IsDir = true →
      h.readdir w.st (h.osOpen w.st path).1 = none →
      (checkEmptyDir h path w).1
        = some (GoError.errorString ("folder " ++ path ++ " is not empty"))) := by
  refine ⟨checkEmptyDir_none_iff h path w, ?_, ?_, ?_⟩
  · intro e he
    simp [checkEmptyDir, osOpen, fileStat, fileReaddir, World.log, he]
  · intro h1 h2 h3
    simp [checkEmptyDir, osOpen, fileStat, fileReaddir, World.log, h1, h2, h3]
  · intro h1 h2 h3 h4
    simp [checkEmptyDir, osOpen, fileStat, fileReaddir, World.log, h1, h2, h3, h4]

/-- C12 on the simulated machine: the empty directory /mnt is accepted; the
missing path /nope, the regular file /etc/passwd and the non-empty directory
/vault are refused. -/
theorem checkEmptyDir_spec_witness :
    (checkEmptyDir (simHost false) "/mnt" (World.start sim0)).1 = none ∧
    (checkEmptyDir (simHost false) "/nope" (World.start sim0)).1
      = some (GoError.sysError "no such file or directory") ∧
    (checkEmptyDir (simHost false) "/etc/passwd" (World.start sim0)).1
      = some (GoError.errorString "/etc/passwd is not a directory") ∧
    (checkEmptyDir (simHost false) "/vault" (World.start sim0)).1
      = some (GoError.errorString "folder /vault is not empty") :=
  ⟨(checkEmptyDir_spec (simHost false) "/mnt" (World.start sim0)).1.mpr (by decide),
   (checkEmptyDir_spec (simHost false) "/nope" (World.start sim0)).2.1 _ (by decide),
   (checkEmptyDir_spec (simHost false) "/etc/passwd" (World.start sim0)).2.2.1
     (by decide) (by decide) (by decide),
   (checkEmptyDir_spec (simHost false) "/vault" (World.start sim0)).2.2.2
     (by decide) (by decide) (by decide) (by decide)⟩

/-! ## C13 -/

/-- The loop of `promptNewPassword` with `n` iterations left reads the
terminal at most `2 * n` times and makes no other call. -/
theorem promptNewPasswordLoop_reads (h : Host σ) (prompt : String) (m : ℚ) (n : Nat)
    (w : World σ) :
    ∃ d, (promptNewPasswordLoop h prompt m n w).2.trace = w.trace ++ d ∧
      d.length ≤ 2 * n ∧ ∀ e ∈ d, ∃ r, e = Event.readPassword r := by
  induction n generalizing w with
  | zero => exact ⟨[], by simp [promptNewPasswordLoop], by simp, by simp⟩
  | succ n ih =>
    have t1 := terminalGetSecret_trace h prompt w
    have t2 := terminalGetSecret_trace h "Confirm password:" (terminalGetSecret h prompt w).2
    obtain ⟨d1, hd1, hl1, hr1⟩ := ih (terminalGetSecret h prompt w).2
    obtain ⟨d2, hd2, hl2, hr2⟩ :=
      ih (terminalGetSecret h "Confirm password:" (terminalGetSecret h prompt w).2).2
    have one : ∃ d, (terminalGetSecret h prompt w).2.trace = w.trace ++ d ∧
        d.length ≤ 2 * (n + 1) ∧ ∀ e ∈ d, ∃ r, e = Event.readPassword r :=
      ⟨_, t1, by simp; omega, fun e he => ⟨_, List.mem_singleton.mp he⟩⟩
    have oneRec : ∃ d, (promptNewPasswordLoop h prompt m n
          (terminalGetSecret h prompt w).2).2.trace = w.trace ++ d ∧
        d.length ≤ 2 * (n + 1) ∧ ∀ e ∈ d, ∃ r, e = Event.readPassword r := by
      refine ⟨[Event.readPassword (h.readPassword w.st).1] ++ d1,
        by rw [hd1, t1, List.append_assoc], by simp only [List.length_append, List.length_singleton]; omega, ?_⟩
      intro e he
      rcases List.mem_append.mp he with he | he
      · exact ⟨_, List.mem_singleton.mp he⟩
      · exact hr1 e he
    have two : ∃ d, (terminalGetSecret h "Confirm password:"
          (terminalGetSecret h prompt w).2).2.trace = w.trace ++ d ∧
        d.length ≤ 2 * (n + 1) ∧ ∀ e ∈ d, ∃ r, e = Event.readPassword r := by
      refine ⟨[Event.readPassword (h.readPassword w.st).1] ++
          [Event.readPassword (h.readPassword (terminalGetSecret h prompt w).2.st).1],
        by rw [t2, t1, List.append_assoc], by simp only [List.length_append, List.length_singleton]; omega, ?_⟩
      intro e he
      rcases List.mem_append.mp he with he | he
      · exact ⟨_, List.mem_singleton.mp he⟩
      · exact ⟨_, List.mem_singleton.mp he⟩
    have twoRec : ∃ d, (promptNewPasswordLoop h prompt m n
          (terminalGetSecret h "Confirm password:"
            (terminalGetSecret h prompt w).2).2).2.trace = w.trace ++ d ∧
        d.length ≤ 2 * (n + 1) ∧ ∀ e ∈ d, ∃ r, e = Event.readPassword r := by
      refine ⟨[Event.readPassword (h.readPassword w.st).1] ++
          ([Event.readPassword (h.readPassword (terminalGetSecret h prompt w).2.st).1] ++ d2),
        by rw [hd2, t2, t1, List.append_assoc, List.append_assoc], by simp only [List.length_append, List.length_singleton]; omega, ?_⟩
      intro e he
      rcases List.mem_append.mp he with he | he
      · exact ⟨_, List.mem_singleton.mp he⟩
      · rcases List.mem_append.mp he with he | he
        · exact ⟨_, List.mem_singleton.mp he⟩
        · exact hr2 e he
    simp only [promptNewPasswordLoop]
    repeat' split
    all_goals first
      | exact one
      | exact oneRec
      | exact two
      | exact twoRec

/-- On a terminal that only ever delivers blank entries, the loop of
`promptNewPassword` uses up its `n` iterations with one read each and ends in
the error "Too many tries. Please try again later". -/
theorem promptNewPasswordLoop_all_blank (h : Host σ) (prompt : String) (m : ℚ)
    (hblank : ∀ s, (h.readPassword s).1.2 = none ∧ trimSpace (h.readPassword s).1.1 = "")
    (n : Nat) (w : World σ) :
    (promptNewPasswordLoop h prompt m n w).1
      = ("", some (GoError.errorString "Too many tries. Please try again later")) ∧
    (promptNewPasswordLoop h prompt m n w).2.trace.length = w.trace.length + n := by
  induction n generalizing w with
  | zero => simp [promptNewPasswordLoop]
  | succ n ih =>
    have hv := terminalGetSecret_value h prompt w
    have ht := terminalGetSecret_trace h prompt w
    rw [(hblank w.st).1] at hv
    simp only [(hblank w.st).2] at hv
    have hstep : promptNewPasswordLoop h prompt m (n + 1) w
        = promptNewPasswordLoop h prompt m n (terminalGetSecret h prompt w).2 := by
      rw [promptNewPasswordLoop]
      simp only [hv]
      simp
    rw [hstep]
    refine ⟨(ih _).1, ?_⟩
    rw [(ih _).2, ht]
    simp
    omega

/-- An error of the loop of `promptNewPassword` comes with the empty password. -/
theorem promptNewPasswordLoop_err_empty (h : Host σ) (prompt : String) (m : ℚ) (n : Nat)
    (w : World σ) :
    (promptNewPasswordLoop h prompt m n w).1.2 ≠ none →
      (promptNewPasswordLoop h prompt m n w).1.1 = "" := by
  induction n generalizing w with
  | zero => intro _; rfl
  | succ n ih =>
    simp only [promptNewPasswordLoop]
    repeat' split
    all_goals first
      | exact ih _
      | (intro _; rfl)
      | (intro hc; exact absurd rfl hc)

/-- C13: `promptNewPassword` is the loop with `maxNewPasswordTries` = 10
iterations; it always returns, after at most 20 reads of the terminal and no
other call, and an error comes with an empty password. In an iteration, a read
error on the passphrase prompt ends the loop at once with "Input error: ...";
an empty or weak passphrase, a read error on the confirmation, and a
confirmation that differs each pass to the next iteration with one iteration
fewer left; with none left the result is the empty password and the error
"Too many tries. Please try again later", as after ten blank entries. -/
theorem promptNewPassword_bounded (h : Host σ) (prompt : String) (m : ℚ) (w : World σ) :
    (promptNewPassword h prompt m w = promptNewPasswordLoop h prompt m 10 w) ∧
    (∃ d, (promptNewPassword h prompt m w).2.trace = w.trace ++ d ∧ d.length ≤ 20 ∧
      ∀ e ∈ d, ∃ r, e = Event.readPassword r) ∧
    (∀ n w0 e, (terminalGetSecret h prompt w0).1.2 = some e →
      promptNewPasswordLoop h prompt m (n + 1) w0
        = (("", some (GoError.errorString ("Input error: " ++ e.Error))),
            (terminalGetSecret h prompt w0).2)) ∧
    (∀ n w0 p, (terminalGetSecret h prompt w0).1 = (p, none) →
      (p = "" ∨ h.passwordEntropy p < m) →
      promptNewPasswordLoop h prompt m (n + 1) w0
        = promptNewPasswordLoop h prompt m n (terminalGetSecret h prompt w0).2) ∧
    (∀ n w0 p, (terminalGetSecret h prompt w0).1 = (p, none) →
      p ≠ "" → ¬ h.passwordEntropy p < m →
      (terminalGetSecret h "Confirm password:" (terminalGetSecret h prompt w0).2).1.2 ≠ none →
      promptNewPasswordLoop h prompt m (n + 1) w0
        = promptNewPasswordLoop h prompt m n
            (terminalGetSecret h "Confirm password:" (terminalGetSecret h prompt w0).2).2) ∧
    (∀ n w0 p c, (terminalGetSecret h prompt w0).1 = (p, none) →
      p ≠ "" → ¬ h.passwordEntropy p < m →
      (terminalGetSecret h "Confirm password:" (terminalGetSecret h prompt w0).2).1
        = (c, none) → p ≠ c →
      promptNewPasswordLoop h prompt m (n + 1) w0
        = promptNewPasswordLoop h prompt m n
            (terminalGetSecret h "Confirm password:" (terminalGetSecret h prompt w0).2).2) ∧
    (∀ w0, promptNewPasswordLoop h prompt m 0 w0
      = (("", some (GoError.errorString "Too many tries. Please try again later")), w0)) ∧
    ((∀ s, (h.readPassword s).1.2 = none ∧ trimSpace (h.readPassword s).1.1 = "") →
      (promptNewPassword h prompt m w).1
        = ("", some (GoError.errorString "Too many tries. Please try again later")) ∧
      (promptNewPassword h prompt m w).2.trace.length = w.trace.length + 10) ∧
    ((promptNewPassword h prompt m w).1.2 ≠ none → (promptNewPassword h prompt m w).1.1 = "") := by
  have hempty : ∀ p : String, p.length = 0 ↔ p = "" := by
    intro p
    constructor
    · intro hp
      cases p with
      | mk data =>
        have : data = [] := List.length_eq_zero.mp hp
        subst this
        rfl
    · intro hp
      subst hp
      rfl
  refine ⟨rfl, ?_, ?_, ?_, ?_, ?_, ?_, ?_, ?_⟩
  · obtain ⟨d, hd, hl, hr⟩ := promptNewPasswordLoop_reads h prompt m maxNewPasswordTries w
    exact ⟨d, hd, by simpa [maxNewPasswordTries] using hl, hr⟩
  · intro n w0 e he
    rw [promptNewPasswordLoop]
    simp only [he]
  · intro n w0 p hp hweak
    rw [promptNewPasswordLoop]
    simp only [hp]
    rw [if_pos (by rcases hweak with hw | hw; exact Or.inl ((hempty p).mpr hw); exact Or.inr hw)]
  · intro n w0 p hp hne hstrong hc
    rw [promptNewPasswordLoop]
    simp only [hp]
    rw [if_neg (by
      rintro (hw | hw)
      · exact hne ((hempty p).mp hw)
      · exact hstrong hw)]
    cases hcc : (terminalGetSecret h "Confirm password:" (terminalGetSecret h prompt w0).2).1.2 with
    | none => exact absurd hcc hc
    | some e => rfl
  · intro n w0 p c hp hne hstrong hc hpc
    rw [promptNewPasswordLoop]
    simp only [hp]
    rw [if_neg (by
      rintro (hw | hw)
      · exact hne ((hempty p).mp hw)
      · exact hstrong hw)]
    simp only [hc]
    rw [if_pos hpc]
  · intro w0
    rfl
  · intro hblank
    exact promptNewPasswordLoop_all_blank h prompt m hblank maxNewPasswordTries w
  · exact promptNewPasswordLoop_err_empty h prompt m maxNewPasswordTries w

/-- C13 on the simulated machine: the terminal cannot be read (as in the
test with no terminal), and the first read ends the prompt with an "Input
error". -/
theorem promptNewPassword_bounded_witness :
    promptNewPasswordLoop (simHost false) "Enter encryption passphrase: " minEntropy (9 + 1)
        (World.start sim0)
      = (("", some (GoError.errorString
            ("Input error: " ++ (GoError.sysError "inappropriate ioctl for device").Error))),
          (terminalGetSecret (simHost false) "Enter encryption passphrase: "
            (World.start sim0)).2) :=
  (promptNewPassword_bounded (simHost false) "Enter encryption passphrase: " minEntropy
    (World.start sim0)).2.2.1 9 (World.start sim0) _ rfl

/-! ## C14 -/

/-- C14 as stated fails: with an empty `mountPoint` argument on a machine
whose temporary folder is full, `TempDir` fails, no directory is created (the
state of the machine is unchanged, the one call made is `TempDir`), and
`mountCrypt` returns "Failed to create mount point: ...". -/
theorem mountCrypt_temp_dir_may_fail :
    (mountCrypt simHostNoTmp "/vault" "" "correct horse" (World.start sim0)).1
      = ("", some (GoError.errorString
          "Failed to create mount point: no space left on device")) ∧
    (mountCrypt simHostNoTmp "/vault" "" "correct horse" (World.start sim0)).2.st = sim0 ∧
    (mountCrypt simHostNoTmp "/vault" "" "correct horse" (World.start sim0)).2.trace
      = [Event.tempDir "" "emount_" ("", some (GoError.sysError "no space left on device"))] := by
  decide

/-- The three outcomes of `mountCrypt` on an empty `mountPoint` argument:
`TempDir` fails; the directory is created and the run of the tool fails, then
the directory is removed; the directory is created and the run succeeds. -/
theorem mountCrypt_auto (h : Host σ) (cryptPath encPass : String) (w : World σ) :
    (∀ e, (h.tempDir w.st "" tmpFolderPattern).1.2 = some e →
      (mountCrypt h cryptPath "" encPass w).1
        = ("", some (GoError.errorString ("Failed to create mount point: " ++ e.Error))) ∧
      (mountCrypt h cryptPath "" encPass w).2.trace
        = w.trace ++ [Event.tempDir "" tmpFolderPattern (h.tempDir w.st "" tmpFolderPattern).1]) ∧
    (∀ mp, (h.tempDir w.st "" tmpFolderPattern).1 = (mp, none) →
      (h.run (h.tempDir w.st "" tmpFolderPattern).2 (mountCmd cryptPath mp encPass)).1.err ≠ none →
      (mountCrypt h cryptPath "" encPass w).1.1 = "" ∧
      (mountCrypt h cryptPath "" encPass w).1.2 ≠ none ∧
      (mountCrypt h cryptPath "" encPass w).2.trace
        = w.trace ++ [Event.tempDir "" tmpFolderPattern (mp, none),
            Event.run (mountCmd cryptPath mp encPass)
              (h.run (h.tempDir w.st "" tmpFolderPattern).2 (mountCmd cryptPath mp encPass)).1,
            Event.removeAll mp]) ∧
    (∀ mp, (h.tempDir w.st "" tmpFolderPattern).1 = (mp, none) →
      (h.run (h.tempDir w.st "" tmpFolderPattern).2 (mountCmd cryptPath mp encPass)).1.err = none →
      (mountCrypt h cryptPath "" encPass w).1 = (mp, none) ∧
      (mountCrypt h cryptPath "" encPass w).2.trace
        = w.trace ++ [Event.tempDir "" tmpFolderPattern (mp, none),
            Event.run (mountCmd cryptPath mp encPass)
              (h.run (h.tempDir w.st "" tmpFolderPattern).2 (mountCmd cryptPath mp encPass)).1]) := by
  refine ⟨?_, ?_, ?_⟩
  · intro e he
    simp [mountCrypt, ioutilTempDir, he]
  · intro mp ht hrun
    have h1 : (h.tempDir w.st "" tmpFolderPattern).1.1 = mp := by rw [ht]
    have h2 : (h.tempDir w.st "" tmpFolderPattern).1.2 = none := by rw [ht]
    simp only [mountCmd] at hrun
    simp only [mountCrypt, mountCryptAt, ioutilTempDir, cmdRun, osRemoveAll, mountCmd, if_true]
    repeat' split
    all_goals simp_all
  · intro mp ht hrun
    have h1 : (h.tempDir w.st "" tmpFolderPattern).1.1 = mp := by rw [ht]
    have h2 : (h.tempDir w.st "" tmpFolderPattern).1.2 = none := by rw [ht]
    simp only [mountCmd] at hrun
    simp [mountCrypt, mountCryptAt, ioutilTempDir, cmdRun, h1, h2, mountCmd, hrun, ht]

/-- C14, amended: with an empty `mountPoint` argument `mountCrypt` first calls
`TempDir`. If that fails it returns the empty path and "Failed to create mount
point: ..." and calls nothing else. If it creates `mp`, the tool is run on
`mp`; when the run returns an error, whatever it is, `RemoveAll(mp)` follows and
the returned path is empty with a non-nil error; when the run succeeds `mp` is
returned with a nil error and no removal is made. -/
theorem mountCrypt_temp_dir (h : Host σ) (cryptPath encPass : String) (w : World σ) :
    (∀ e, (h.tempDir w.st "" tmpFolderPattern).1.2 = some e →
      (mountCrypt h cryptPath "" encPass w).1
        = ("", some (GoError.errorString ("Failed to create mount point: " ++ e.Error))) ∧
      (mountCrypt h cryptPath "" encPass w).2.trace
        = w.trace ++ [Event.tempDir "" tmpFolderPattern (h.tempDir w.st "" tmpFolderPattern).1]) ∧
    (∀ mp, (h.tempDir w.st "" tmpFolderPattern).1 = (mp, none) →
      (h.run (h.tempDir w.st "" tmpFolderPattern).2 (mountCmd cryptPath mp encPass)).1.err ≠ none →
      (mountCrypt h cryptPath "" encPass w).1.1 = "" ∧
      (mountCrypt h cryptPath "" encPass w).1.2 ≠ none ∧
      (mountCrypt h cryptPath "" encPass w).2.trace
        = w.trace ++ [Event.tempDir "" tmpFolderPattern (mp, none),
            Event.run (mountCmd cryptPath mp encPass)
              (h.run (h.tempDir w.st "" tmpFolderPattern).2 (mountCmd cryptPath mp encPass)).1,
            Event.removeAll mp]) ∧
    (∀ mp, (h.tempDir w.st "" tmpFolderPattern).1 = (mp, none) →
      (h.run (h.tempDir w.st "" tmpFolderPattern).2 (mountCmd cryptPath mp encPass)).1.err = none →
      (mountCrypt h cryptPath "" encPass w).1 = (mp, none) ∧
      (mountCrypt h cryptPath "" encPass w).2.trace
        = w.trace ++ [Event.tempDir "" tmpFolderPattern (mp, none),
            Event.run (mountCmd cryptPath mp encPass)
              (h.run (h.tempDir w.st "" tmpFolderPattern).2 (mountCmd cryptPath mp encPass)).1]) :=
  mountCrypt_auto h cryptPath encPass w

/-- C14, amended, on the simulated machine: the temporary directory
/tmp/emount_1 is created, the passphrase is wrong, and the directory is
removed again. -/
theorem mountCrypt_temp_dir_witness :
    (mountCrypt (simHost false) "/vault" "" "wrong" (World.start sim0)).1.1 = "" ∧
    (mountCrypt (simHost false) "/vault" "" "wrong" (World.start sim0)).1.2 ≠ none ∧
    (mountCrypt (simHost false) "/vault" "" "wrong" (World.start sim0)).2.trace
      = (World.start sim0).trace ++ [Event.tempDir "" tmpFolderPattern ("/tmp/emount_1", none),
          Event.run (mountCmd "/vault" "/tmp/emount_1" "wrong")
            ((simHost false).run ((simHost false).tempDir (World.start sim0).st ""
              tmpFolderPattern).2 (mountCmd "/vault" "/tmp/emount_1" "wrong")).1,
          Event.removeAll "/tmp/emount_1"] :=
  (mountCrypt_temp_dir (simHost false) "/vault" "wrong" (World.start sim0)).2.1
    "/tmp/emount_1" (by decide) (by decide)

/-! ## C15 -/

/-- When obtaining the passphrase fails, `decryptAndRun` returns that error
at once. -/
theorem decryptAndRun_pass_err (h : Host σ) (opt : options) (w w1 : World σ)
    (encPass : String) (e : GoError)
    (hpass : (if h.getenv w.st envPasswordKey = "" then
        terminalGetSecret h "Enter encryption passphrase: " w
      else ((h.getenv w.st envPasswordKey, none), w)) = ((encPass, some e), w1)) :
    decryptAndRun h opt w = some (some e, w1) := by
  unfold decryptAndRun
  by_cases hg : h.getenv w.st envPasswordKey = ""
  · rw [if_pos hg] at hpass ⊢
    rw [hpass]
  · rw [if_neg hg] at hpass
    simp at hpass

/-- On a given mount point `mountCrypt` makes one call, the run of the tool. -/
theorem mountCrypt_given_trace (h : Host σ) (cryptPath mountPoint encPass : String)
    (w : World σ) (hm : mountPoint ≠ "") :
    (mountCrypt h cryptPath mountPoint encPass w).2.trace = w.trace ++
      [Event.run (mountCmd cryptPath mountPoint encPass)
        (h.run w.st (mountCmd cryptPath mountPoint encPass)).1] := by
  simp only [mountCrypt, mountCryptAt, cmdRun, if_neg hm, mountCmd]
  repeat' split
  all_goals simp_all

/-- A removal among the calls of `mountCrypt` is the `RemoveAll` of the
directory that `TempDir` created for an empty `mountPoint` argument. -/
theorem mountCrypt_removals (h : Host σ) (cryptPath mountPoint encPass : String)
    (w : World σ) :
    TraceExt (fun e => e.isRemoval = true → mountPoint = "" ∧
        ∃ tmp, (h.tempDir w.st "" tmpFolderPattern).1 = (tmp, none) ∧ e = Event.removeAll tmp)
      w.trace (mountCrypt h cryptPath mountPoint encPass w).2.trace := by
  by_cases hm : mountPoint = ""
  · subst hm
    have hauto := mountCrypt_auto h cryptPath encPass w
    rcases ht : (h.tempDir w.st "" tmpFolderPattern).1 with ⟨tmp, terr⟩
    cases terr with
    | some e =>
      have h1 := (hauto.1 e (by rw [ht])).2
      refine ⟨_, h1, ?_⟩
      intro ev hev
      rw [List.mem_singleton.mp hev]
      intro hrem
      simp [Event.isRemoval] at hrem
    | none =>
      by_cases hr : (h.run (h.tempDir w.st "" tmpFolderPattern).2
          (mountCmd cryptPath tmp encPass)).1.err = none
      · have h1 := (hauto.2.2 tmp ht hr).2
        refine ⟨_, h1, ?_⟩
        intro ev hev
        simp only [List.mem_cons, List.mem_singleton, List.not_mem_nil, or_false] at hev
        rcases hev with rfl | rfl <;> (intro hrem; simp [Event.isRemoval] at hrem)
      · have h1 := (hauto.2.1 tmp ht hr).2.2
        refine ⟨_, h1, ?_⟩
        intro ev hev
        simp only [List.mem_cons, List.mem_singleton, List.not_mem_nil, or_false] at hev
        rcases hev with rfl | rfl | rfl
        · intro hrem
          simp [Event.isRemoval] at hrem
        · intro hrem
          simp [Event.isRemoval] at hrem
        · intro _
          exact ⟨rfl, tmp, rfl, rfl⟩
  · refine ⟨_, mountCrypt_given_trace h cryptPath mountPoint encPass w hm, ?_⟩
    intro ev hev
    rw [List.mem_singleton.mp hev]
    intro hrem
    simp [Event.isRemoval] at hrem

/-- A successful `mountCrypt` removes nothing. -/
theorem mountCrypt_ok_no_removal (h : Host σ) (cryptPath mountPoint encPass : String)
    (w : World σ) (hok : (mountCrypt h cryptPath mountPoint encPass w).1.2 = none) :
    TraceExt (fun e => e.isRemoval = false) w.trace
      (mountCrypt h cryptPath mountPoint encPass w).2.trace := by
  by_cases hm : mountPoint = ""
  · subst hm
    have hauto := mountCrypt_auto h cryptPath encPass w
    rcases ht : (h.tempDir w.st "" tmpFolderPattern).1 with ⟨tmp, terr⟩
    cases terr with
    | some e =>
      have h1 := (hauto.1 e (by rw [ht])).1
      rw [h1] at hok
      simp at hok
    | none =>
      by_cases hr : (h.run (h.tempDir w.st "" tmpFolderPattern).2
          (mountCmd cryptPath tmp encPass)).1.err = none
      · have h1 := (hauto.2.2 tmp ht hr).2
        refine ⟨_, h1, ?_⟩
        intro ev hev
        simp only [List.mem_cons, List.mem_singleton, List.not_mem_nil, or_false] at hev
        rcases hev with rfl | rfl <;> rfl
      · exact absurd hok (hauto.2.1 tmp ht hr).2.1
  · refine ⟨_, mountCrypt_given_trace h cryptPath mountPoint encPass w hm, ?_⟩
    intro ev hev
    rw [List.mem_singleton.mp hev]
    rfl

/-- After a successful mount, with the results of the user command and of
`unmountVol` named: `decryptAndRun` returns nil, and its last call is the
`Remove` of the mount point exactly when the unmount succeeded and no mount
point was given. -/
theorem decryptAndRunWith_unmount (h : Host σ) (opt : options) (encPass : String)
    (w1 w2 w3 w4 : World σ) (mp : String) (cerr uerr : error) (hne : encPass ≠ "")
    (hmount : mountCrypt h opt.run opt.mountPoint encPass w1 = ((mp, none), w2))
    (hrunc : runCommand h opt.runCmd (h.environ w2.st ++ [envFolderKey ++ "=" ++ mp]) w2
      = some (cerr, w3))
    (hun : unmountVol h mp w3 = (uerr, w4)) :
    decryptAndRunWith h opt encPass w1 =
      some (none, if uerr = none ∧ opt.mountPoint = "" then (osRemove h mp w4).2 else w4) := by
  unfold decryptAndRunWith
  rw [if_neg hne, hmount]
  simp only
  rw [hrunc]
  simp only
  rw [hun]
  cases uerr with
  | some e => simp
  | none =>
    by_cases hm : opt.mountPoint = "" <;> simp [hm]

/-- C15: name the results of the steps of `decryptAndRun` (passphrase, mount,
user command, unmount). Then `decryptAndRun` returns, and among the calls it
made a removal (`Remove` or `RemoveAll`) occurs only when no mount point was
given, the passphrase was obtained, `TempDir` created the directory `tmp`, and
either the mount failed and the call is `RemoveAll(tmp)`, or the mount and the
unmount succeeded and the call is `Remove(tmp)`. So with a mount point given
nothing is removed, and after a failed unmount nothing is removed. -/
theorem decryptAndRun_removals (h : Host σ) (opt : options) (w w1 w2 w3 w4 : World σ)
    (encPass mp : String) (perr merr cerr uerr : error)
    (hpass : (if h.getenv w.st envPasswordKey = "" then
        terminalGetSecret h "Enter encryption passphrase: " w
      else ((h.getenv w.st envPasswordKey, none), w)) = ((encPass, perr), w1))
    (hmount : mountCrypt h opt.run opt.mountPoint encPass w1 = ((mp, merr), w2))
    (hrunc : runCommand h opt.runCmd (h.environ w2.st ++ [envFolderKey ++ "=" ++ mp]) w2
      = some (cerr, w3))
    (hun : unmountVol h mp w3 = (uerr, w4)) :
    ∃ err wf d, decryptAndRun h opt w = some (err, wf) ∧ wf.trace = w.trace ++ d ∧
      (opt.mountPoint ≠ "" → ∀ e ∈ d, e.isRemoval = false) ∧
      (perr = none → encPass ≠ "" → merr = none → uerr ≠ none →
        ∀ e ∈ d, e.isRemoval = false) ∧
      (∀ e ∈ d, e.isRemoval = true →
        opt.mountPoint = "" ∧ perr = none ∧ encPass ≠ "" ∧
        ∃ tmp, (h.tempDir w1.st "" tmpFolderPattern).1 = (tmp, none) ∧
          ((merr ≠ none ∧ e = Event.removeAll tmp) ∨
            (merr = none ∧ uerr = none ∧ tmp = mp ∧ e = Event.remove tmp))) := by
  have key : ∃ err wf, decryptAndRun h opt w = some (err, wf) ∧
      TraceExt (fun e => e.isRemoval = true →
        opt.mountPoint = "" ∧ perr = none ∧ encPass ≠ "" ∧
        ∃ tmp, (h.tempDir w1.st "" tmpFolderPattern).1 = (tmp, none) ∧
          ((merr ≠ none ∧ e = Event.removeAll tmp) ∨
            (merr = none ∧ uerr = none ∧ tmp = mp ∧ e = Event.remove tmp)))
        w.trace wf.trace := by
    have hread := (passphrase_ext h w w1 _ hpass).mono (Q := fun e => e.isRemoval = true →
        opt.mountPoint = "" ∧ perr = none ∧ encPass ≠ "" ∧
        ∃ tmp, (h.tempDir w1.st "" tmpFolderPattern).1 = (tmp, none) ∧
          ((merr ≠ none ∧ e = Event.removeAll tmp) ∨
            (merr = none ∧ uerr = none ∧ tmp = mp ∧ e = Event.remove tmp))) (by
      rintro e ⟨r, rfl⟩ hrem
      simp [Event.isRemoval] at hrem)
    cases perr with
    | some e => exact ⟨_, _, decryptAndRun_pass_err h opt w w1 encPass e hpass, hread⟩
    | none =>
      rw [decryptAndRun_eq_with h opt w w1 encPass hpass]
      by_cases hne : encPass = ""
      · refine ⟨some (GoError.errorString "Password may not be empty"), w1, ?_, hread⟩
        unfold decryptAndRunWith
        rw [if_pos hne]
      · cases merr with
        | some e =>
          refine ⟨some (GoError.errorString ("Failed to mount: " ++ e.Error)), w2, ?_,
            hread.trans ?_⟩
          · unfold decryptAndRunWith
            rw [if_neg hne, hmount]
          · have hm := mountCrypt_removals h opt.run opt.mountPoint encPass w1
            rw [hmount] at hm
            refine hm.mono ?_
            intro ev hev hrem
            obtain ⟨h1, tmp, h2, h3⟩ := hev hrem
            exact ⟨h1, rfl, hne, tmp, h2, Or.inl ⟨by simp, h3⟩⟩
        | none =>
          refine ⟨_, _, decryptAndRunWith_unmount h opt encPass w1 w2 w3 w4 mp cerr uerr hne
            hmount hrunc hun, ?_⟩
          have h12 : TraceExt (fun e => e.isRemoval = false) w1.trace w2.trace := by
            have hm := mountCrypt_ok_no_removal h opt.run opt.mountPoint encPass w1
              (by rw [hmount])
            rw [hmount] at hm
            exact hm
          have h23 : TraceExt (fun e => e.isRemoval = false) w2.trace w3.trace := by
            cases hc : opt.runCmd with
            | nil => rw [hc] at hrunc; simp [runCommand] at hrunc
            | cons c cs =>
              rw [hc, runCommand_cons] at hrunc
              simp only [Option.some.injEq] at hrunc
              have ht := runCommandAt_trace h c (c :: cs)
                (h.environ w2.st ++ [envFolderKey ++ "=" ++ mp]) w2
              rw [hrunc] at ht
              exact ⟨_, ht, fun ev hev => by rw [List.mem_singleton.mp hev]; rfl⟩
          have h34 : TraceExt (fun e => e.isRemoval = false) w3.trace w4.trace := by
            have hq := unmountVol_quiet h mp w3
            rw [hun] at hq
            exact hq.mono fun ev hev => hev.2
          have h14 := ((h12.trans h23).trans h34).mono (Q := fun e => e.isRemoval = true →
              opt.mountPoint = "" ∧ (none : error) = none ∧ encPass ≠ "" ∧
              ∃ tmp, (h.tempDir w1.st "" tmpFolderPattern).1 = (tmp, none) ∧
                (((none : error) ≠ none ∧ e = Event.removeAll tmp) ∨
                  ((none : error) = none ∧ uerr = none ∧ tmp = mp ∧ e = Event.remove tmp))) (by
            intro ev hev hrem
            rw [hev] at hrem
            simp at hrem)
          by_cases hfin : uerr = none ∧ opt.mountPoint = ""
          · rw [if_pos hfin]
            refine (hread.trans h14).snoc _ ?_
            intro _
            have hp := (mountCrypt_ok_path h opt.run opt.mountPoint encPass w1 mp
              (by rw [hmount])).2 hfin.2
            exact ⟨hfin.2, rfl, hne, mp, hp, Or.inr ⟨rfl, hfin.1, rfl, rfl⟩⟩
          · rw [if_neg hfin]
            exact hread.trans h14
  obtain ⟨err, wf, hres, d, hd, hq⟩ := key
  refine ⟨err, wf, d, hres, hd, ?_, ?_, hq⟩
  · intro hm e he
    cases hrem : e.isRemoval with
    | false => rfl
    | true => exact absurd (hq e he hrem).1 hm
  · intro _ _ hmerr huerr e he
    cases hrem : e.isRemoval with
    | false => rfl
    | true =>
      obtain ⟨-, -, -, tmp, -, hcase⟩ := hq e he hrem
      rcases hcase with ⟨hx, -⟩ | ⟨-, hx, -⟩
      · exact absurd hmerr hx
      · exact absurd hx huerr

/-- C15 on the simulated machine: no mount point is given, /bin/false fails,
the unmount succeeds, and the one removal is that of the temporary mount point
/tmp/emount_1. -/
theorem decryptAndRun_removals_witness :
    ∃ err wf d, decryptAndRun (simHost false) optFalse (World.start simEnvPass)
        = some (err, wf) ∧
      wf.trace = (World.start simEnvPass).trace ++ d ∧
      ∀ e ∈ d, e.isRemoval = true → e = Event.remove "/tmp/emount_1" := by
  obtain ⟨err, wf, d, hres, hd, -, -, hq⟩ :=
    decryptAndRun_removals (simHost false) optFalse (World.start simEnvPass)
      (World.start simEnvPass)
      (mountCrypt (simHost false) "/vault" "" "correct horse" (World.start simEnvPass)).2
      (runCommandAt (simHost false) "/bin/false" ["/bin/false"]
        ["EMOUNT_PASSWORD=correct horse", "EMOUNT_FOLDER=/tmp/emount_1"]
        (mountCrypt (simHost false) "/vault" "" "correct horse" (World.start simEnvPass)).2).2
      (unmountVol (simHost false) "/tmp/emount_1"
        (runCommandAt (simHost false) "/bin/false" ["/bin/false"]
          ["EMOUNT_PASSWORD=correct horse", "EMOUNT_FOLDER=/tmp/emount_1"]
          (mountCrypt (simHost false) "/vault" "" "correct horse"
            (World.start simEnvPass)).2).2).2
      "correct horse" "/tmp/emount_1" none none
      (some (GoError.errorString "Command exited with error. [rc=1]")) none
      rfl rfl rfl rfl
  refine ⟨err, wf, d, hres, hd, ?_⟩
  intro e he hrem
  obtain ⟨-, -, -, tmp, htmp, hcase⟩ := hq e he hrem
  rcases hcase with ⟨hx, -⟩ | ⟨-, -, hx, hy⟩
  · exact absurd rfl hx
  · rw [hy, hx]

/-! ## C16 -/

/-- The calls `mountCrypt` makes feed a non-empty passphrase to the tool when
the passphrase given is not empty. -/
theorem mountCrypt_pass (h : Host σ) (cryptPath mountPoint encPass : String) (w : World σ)
    (hne : encPass ≠ "") :
    TraceExt Event.passNonEmpty w.trace
      (mountCrypt h cryptPath mountPoint encPass w).2.trace := by
  refine (mountCrypt_ext h cryptPath mountPoint encPass w).mono ?_
  rintro e (⟨r, rfl⟩ | ⟨mp, res, rfl⟩ | ⟨mp, rfl⟩)
  · intro cmd res heq
    cases heq
  · intro cmd res2 heq
    simp only [Event.run.injEq] at heq
    rw [← heq.1]
    simpa [mountCmd] using hne
  · intro cmd res heq
    cases heq

/-- The calls `unmountVol` makes feed no passphrase to any process. -/
theorem unmountVol_pass (h : Host σ) (path : String) (w : World σ) :
    TraceExt Event.passNonEmpty w.trace (unmountVol h path w).2.trace := by
  obtain ⟨flags, d, hd, hall⟩ := unmountVol_ext h path w
  refine ⟨_, hd, ?_⟩
  intro e he
  rcases List.mem_cons.mp he with rfl | he
  · intro cmd res heq
    cases heq
  · rcases hall e he with rfl | ⟨fm, env, res, rfl⟩
    · intro cmd res heq
      cases heq
    · intro cmd res2 heq
      simp only [Event.run.injEq] at heq
      rw [← heq.1]
      simp [userCmd]

/-- A call that is no run of a process needs no passphrase. -/
theorem Event.passNonEmpty_of_not_run (e : Event) (he : ∀ cmd res, e ≠ Event.run cmd res) :
    e.passNonEmpty :=
  fun cmd res heq => absurd heq (he cmd res)

/-- The calls `initialCopy` makes feed a non-empty passphrase to the tool when
the passphrase given is not empty. -/
theorem initialCopy_pass (h : Host σ) (cryptPath password initFrom : String) (w : World σ)
    (hne : password ≠ "") :
    TraceExt Event.passNonEmpty w.trace
      (initialCopy h cryptPath password initFrom w).2.trace := by
  have hmount := mountCrypt_pass h cryptPath "" password w hne
  have hcopy : ∀ a b, (Event.copy a b).passNonEmpty :=
    fun a b => Event.passNonEmpty_of_not_run _ (by intro cmd res heq; cases heq)
  have hrem : ∀ a, (Event.removeAll a).passNonEmpty :=
    fun a => Event.passNonEmpty_of_not_run _ (by intro cmd res heq; cases heq)
  simp only [initialCopy, copyCopy, osRemoveAll]
  repeat' split
  · exact hmount
  · exact (hmount.snoc _ (hcopy _ _)).snoc _ (hrem _)
  · refine TraceExt.snoc ?_ _ (hrem _)
    refine TraceExt.trans ?_ (unmountVol_pass h _ _)
    exact hmount.snoc _ (hcopy _ _)

/-- The calls `initCryptVol` makes once it has the passphrase never feed the
empty passphrase to the tool. -/
theorem initCryptVolWith_pass (h : Host σ) (path initFrom encPass : String) (w : World σ) :
    TraceExt Event.passNonEmpty w.trace
      (initCryptVolWith h path initFrom encPass w).2.trace := by
  by_cases hne : encPass = ""
  · simp only [initCryptVolWith, if_pos hne]
    exact TraceExt.refl _ _
  · have hmk : (Event.mkdirAll path dirMode).passNonEmpty :=
      Event.passNonEmpty_of_not_run _ (by intro cmd res heq; cases heq)
    have hinit : ∀ res, (Event.run (initCmd path encPass) res).passNonEmpty := by
      intro res cmd res2 heq
      simp only [Event.run.injEq] at heq
      rw [← heq.1]
      simpa [initCmd] using hne
    have hpre : ∀ res, TraceExt Event.passNonEmpty w.trace
        ((w.trace ++ [Event.mkdirAll path dirMode]) ++ [Event.run (initCmd path encPass) res]) :=
      fun res => ((TraceExt.refl _ _).snoc _ hmk).snoc _ (hinit res)
    have hcopy : ∀ w3 : World σ, TraceExt Event.passNonEmpty w3.trace
        (initialCopy h path encPass initFrom w3).2.trace :=
      fun w3 => initialCopy_pass h path encPass initFrom w3 hne
    simp only [initCryptVolWith, if_neg hne, osMkdirAll, cmdRun]
    repeat' split
    all_goals first
      | exact (TraceExt.refl _ _).snoc _ hmk
      | exact hpre _
      | exact (hpre _).trans (hcopy _)

/-- The calls `decryptAndRun` makes once it has the passphrase never feed the
empty passphrase to the tool. -/
theorem decryptAndRunWith_pass (h : Host σ) (opt : options) (encPass : String) (w : World σ)
    (r : error × World σ) (hr : decryptAndRunWith h opt encPass w = some r) :
    TraceExt Event.passNonEmpty w.trace r.2.trace := by
  by_cases hne : encPass = ""
  · simp only [decryptAndRunWith, if_pos hne, Option.some.injEq] at hr
    rw [← hr]
    exact TraceExt.refl _ _
  · have hmount := mountCrypt_pass h opt.run opt.mountPoint encPass w hne
    unfold decryptAndRunWith at hr
    rw [if_neg hne] at hr
    simp only at hr
    split at hr
    · simp only [Option.some.injEq] at hr
      rw [← hr]
      exact hmount
    · cases hc : opt.runCmd with
      | nil => rw [hc] at hr; simp [runCommand] at hr
      | cons c cs =>
        rw [hc, runCommand_cons] at hr
        simp only at hr
        have ht := runCommandAt_trace h c (c :: cs)
          (h.environ (mountCrypt h opt.run opt.mountPoint encPass w).2.st ++
            [envFolderKey ++ "=" ++ (mountCrypt h opt.run opt.mountPoint encPass w).1.1])
          (mountCrypt h opt.run opt.mountPoint encPass w).2
        have hrun : TraceExt Event.passNonEmpty w.trace
            (runCommandAt h c (c :: cs)
              (h.environ (mountCrypt h opt.run opt.mountPoint encPass w).2.st ++
                [envFolderKey ++ "=" ++ (mountCrypt h opt.run opt.mountPoint encPass w).1.1])
              (mountCrypt h opt.run opt.mountPoint encPass w).2).2.trace := by
          rw [ht]
          refine hmount.snoc _ ?_
          intro cmd res heq
          simp only [Event.run.injEq] at heq
          rw [← heq.1]
          simp
        have hun := hrun.trans (unmountVol_pass h
          (mountCrypt h opt.run opt.mountPoint encPass w).1.1
          (runCommandAt h c (c :: cs)
              (h.environ (mountCrypt h opt.run opt.mountPoint encPass w).2.st ++
                [envFolderKey ++ "=" ++ (mountCrypt h opt.run opt.mountPoint encPass w).1.1])
              (mountCrypt h opt.run opt.mountPoint encPass w).2).2)
        repeat' split at hr
        all_goals
          simp only [Option.some.injEq] at hr
          rw [← hr]
          first
            | exact hun
            | exact hun.snoc _ (Event.passNonEmpty_of_not_run _
                (by intro cmd res heq; cases heq))

/-- With a command in the options `decryptAndRun` returns. -/
theorem decryptAndRun_total (h : Host σ) (opt : options) (w : World σ)
    (hcmd : opt.runCmd ≠ []) : ∃ r, decryptAndRun h opt w = some r := by
  obtain ⟨c, cs, hc⟩ := List.exists_cons_of_ne_nil hcmd
  have hwith : ∀ encPass (w1 : World σ), ∃ r, decryptAndRunWith h opt encPass w1 = some r := by
    intro encPass w1
    simp only [decryptAndRunWith, hc, runCommand_cons]
    repeat' split
    all_goals exact ⟨_, rfl⟩
  unfold decryptAndRun
  repeat' split
  all_goals first
    | exact ⟨_, rfl⟩
    | exact hwith _ _

/-- C16: no run of a process that `initCryptVol` or `decryptAndRun` starts on
a passphrase buffer (the runs of the tool) is given the empty passphrase, and
`decryptAndRun` returns whenever the options carry a command. If the passphrase
obtained (from EMOUNT_PASSWORD, else from the prompt, trimmed) is empty, either
operation returns an error having made no call but reads of the terminal: no
directory, no temporary mount point, no process. In `initCryptVol` a
passphrase obtained with a nil error is never empty, so the branch "Password
may not be empty" is never taken there. -/
theorem no_empty_passphrase (h : Host σ) (path initFrom : String) (opt : options)
    (w : World σ) :
    ((∀ e ∈ w.trace, e.passNonEmpty) →
      ∀ e ∈ (initCryptVol h path initFrom w).2.trace, e.passNonEmpty) ∧
    ((∀ e ∈ w.trace, e.passNonEmpty) →
      ∀ r, decryptAndRun h opt w = some r → ∀ e ∈ r.2.trace, e.passNonEmpty) ∧
    (opt.runCmd ≠ [] → ∃ r, decryptAndRun h opt w = some r) ∧
    (∀ perr w1, (if h.getenv w.st envPasswordKey = "" then
          promptNewPassword h "Enter encryption passphrase: " minEntropy w
        else ((h.getenv w.st envPasswordKey, none), w)) = (("", perr), w1) →
      ∃ e, initCryptVol h path initFrom w = (some e, w1) ∧
        TraceExt (fun ev => ∃ r, ev = Event.readPassword r) w.trace w1.trace) ∧
    (∀ perr w1, (if h.getenv w.st envPasswordKey = "" then
          terminalGetSecret h "Enter encryption passphrase: " w
        else ((h.getenv w.st envPasswordKey, none), w)) = (("", perr), w1) →
      ∃ e, decryptAndRun h opt w = some (some e, w1) ∧
        TraceExt (fun ev => ∃ r, ev = Event.readPassword r) w.trace w1.trace) ∧
    (∀ encPass w1, (if h.getenv w.st envPasswordKey = "" then
          promptNewPassword h "Enter encryption passphrase: " minEntropy w
        else ((h.getenv w.st envPasswordKey, none), w)) = ((encPass, none), w1) →
      encPass ≠ "") := by
  have hreadOk : ∀ t1 t2 : List Event,
      TraceExt (fun ev => ∃ r, ev = Event.readPassword r) t1 t2 →
      TraceExt Event.passNonEmpty t1 t2 := by
    intro t1 t2 ht
    refine ht.mono ?_
    rintro e ⟨r, rfl⟩
    exact Event.passNonEmpty_of_not_run _ (by intro cmd res heq; cases heq)
  have hprompt := promptNewPasswordLoop_ext h "Enter encryption passphrase: " minEntropy
    maxNewPasswordTries w
  have hunreach : ∀ encPass w1, (if h.getenv w.st envPasswordKey = "" then
        promptNewPassword h "Enter encryption passphrase: " minEntropy w
      else ((h.getenv w.st envPasswordKey, none), w)) = ((encPass, none), w1) →
      encPass ≠ "" := by
    intro encPass w1 hp
    by_cases hg : h.getenv w.st envPasswordKey = ""
    · rw [if_pos hg] at hp
      exact (promptNewPasswordLoop_ok h _ _ _ _ _ _ hp).1
    · rw [if_neg hg] at hp
      simp only [Prod.mk.injEq, and_true] at hp
      rw [← hp.1]
      exact hg
  refine ⟨?_, ?_, decryptAndRun_total h opt w, ?_, ?_, hunreach⟩
  · intro hw
    unfold initCryptVol
    by_cases hg : h.getenv w.st envPasswordKey = ""
    · rw [if_pos hg]
      have hp := hreadOk _ _ hprompt
      unfold promptNewPassword
      split
      rename_i encPass err w1 heq
      rw [heq] at hp
      split
      · exact hp.all hw
      · exact (hp.trans (initCryptVolWith_pass h path initFrom encPass w1)).all hw
    · rw [if_neg hg]
      exact (initCryptVolWith_pass h path initFrom _ w).all hw
  · intro hw r hr
    unfold decryptAndRun at hr
    by_cases hg : h.getenv w.st envPasswordKey = ""
    · rw [if_pos hg] at hr
      have ht := terminalGetSecret_trace h "Enter encryption passphrase: " w
      have hp : TraceExt Event.passNonEmpty w.trace
          (terminalGetSecret h "Enter encryption passphrase: " w).2.trace :=
        hreadOk _ _ ⟨_, ht, fun e he => ⟨_, List.mem_singleton.mp he⟩⟩
      split at hr
      rename_i encPass err w1 heq
      rw [heq] at hp
      split at hr
      · simp only [Option.some.injEq] at hr
        rw [← hr]
        exact hp.all hw
      · exact (hp.trans (decryptAndRunWith_pass h opt encPass w1 r hr)).all hw
    · rw [if_neg hg] at hr
      exact (decryptAndRunWith_pass h opt _ w r hr).all hw
  · intro perr w1 hp
    by_cases hg : h.getenv w.st envPasswordKey = ""
    · rw [if_pos hg] at hp
      have hread := hprompt
      unfold promptNewPassword at hp
      rw [hp] at hread
      cases perr with
      | none => exact absurd rfl (promptNewPasswordLoop_ok h _ _ _ _ _ _ hp).1
      | some e =>
        refine ⟨e, ?_, hread⟩
        unfold initCryptVol promptNewPassword
        rw [if_pos hg, hp]
    · rw [if_neg hg] at hp
      simp only [Prod.mk.injEq] at hp
      exact absurd hp.1.1 hg
  · intro perr w1 hp
    have hread := passphrase_ext h w w1 _ hp
    cases perr with
    | some e => exact ⟨e, decryptAndRun_pass_err h opt w w1 "" e hp, hread⟩
    | none =>
      refine ⟨GoError.errorString "Password may not be empty", ?_, hread⟩
      rw [decryptAndRun_eq_with h opt w w1 "" hp]
      simp [decryptAndRunWith]

/-- C16 on the simulated machine: EMOUNT_PASSWORD is unset and the user
enters only blanks; `decryptAndRun` returns an error after the one read of the
terminal. -/
theorem no_empty_passphrase_witness :
    ∃ e, decryptAndRun (simHost false) optShell (World.start simBlank)
        = some (some e, (terminalGetSecret (simHost false) "Enter encryption passphrase: "
            (World.start simBlank)).2) ∧
      TraceExt (fun ev => ∃ r, ev = Event.readPassword r) (World.start simBlank).trace
        (terminalGetSecret (simHost false) "Enter encryption passphrase: "
          (World.start simBlank)).2.trace :=
  (no_empty_passphrase (simHost false) "/new" "" optShell (World.start simBlank)).2.2.2.2.1
    none _ rfl

end Emount
